import Mathlib

/-
Verification of the SignalDocks event-routing engine against its
natural-language specification.

The definitions below are a shallow embedding, in Lean 4, of the Python
sources under backend/.  Python dictionaries appearing in event payloads
and configuration blobs are modelled by the inductive type PyVal
(insertion-ordered association lists, as CPython dicts are); machine
floats are modelled by rationals; Python exceptions are modelled by
Except; functions that the source treats as fallible return Option or
Except.  Each definition names the Python function or method it embeds.
-/

namespace SignalDocks

/-- Model of a Python value as it occurs in event payloads and node
configuration blobs: None, bool, numbers (int and float collapsed to the
rationals), str, list, and dict (an insertion-ordered association list,
as CPython dictionaries are). -/
inductive PyVal where
  | none : PyVal
  | bool : Bool → PyVal
  | num : ℚ → PyVal
  | str : String → PyVal
  | list : List PyVal → PyVal
  | dict : List (String × PyVal) → PyVal
deriving Repr

mutual

/-- Model of the Python equality test between two payload values.
Python bool is an int, so True equals 1 and False equals 0 across the
bool/number boundary.  CPython compares dictionaries without regard to
insertion order; this model compares them as ordered association
lists, which agrees with CPython on all dictionaries that list their
keys in the same order (the only situation the pipeline code
produces). -/
def pyEq : PyVal → PyVal → Bool
  | .none, .none => true
  | .bool a, .bool b => a == b
  | .bool a, .num b => ((if a then (1 : ℚ) else 0) == b)
  | .num a, .bool b => (a == (if b then (1 : ℚ) else 0))
  | .num a, .num b => a == b
  | .str a, .str b => a == b
  | .list xs, .list ys => pyEqList xs ys
  | .dict xs, .dict ys => pyEqDict xs ys
  | _, _ => false

/-- Elementwise Python equality of two lists. -/
def pyEqList : List PyVal → List PyVal → Bool
  | [], [] => true
  | x :: xs, y :: ys => pyEq x y && pyEqList xs ys
  | _, _ => false

/-- Entrywise Python equality of two dictionaries (see pyEq). -/
def pyEqDict : List (String × PyVal) → List (String × PyVal) → Bool
  | [], [] => true
  | (k, v) :: xs, (k2, v2) :: ys => k == k2 && pyEq v v2 && pyEqDict xs ys
  | _, _ => false

end

/-- Lookup of a key in a dictionary body: Python `d[k]` when the key is
present, first occurrence wins (duplicate keys cannot occur in a real
dict; association lists here are built by dictSet below, which keeps
keys unique). -/
def dictGet? (d : List (String × PyVal)) (k : String) : Option PyVal :=
  (d.find? (fun p => p.1 == k)).map (fun p => p.2)

/-- Python `d.get(k, default)`. -/
def pyGetD (d : List (String × PyVal)) (k : String) (dflt : PyVal) : PyVal :=
  (dictGet? d k).getD dflt

/-- Python `d[k] = v`: replaces the value in place when the key exists
(keeping its position, as CPython does), appends otherwise. -/
def dictSet (d : List (String × PyVal)) (k : String) (v : PyVal) :
    List (String × PyVal) :=
  if (d.find? (fun p => p.1 == k)).isSome then
    d.map (fun p => if p.1 == k then (k, v) else p)
  else
    d ++ [(k, v)]

/-- Generic association-list lookup (used for the Python dictionaries
that hold runtime state keyed by strings). -/
def alistGet? {α : Type} (m : List (String × α)) (k : String) : Option α :=
  (m.find? (fun p => p.1 == k)).map (fun p => p.2)

/-- Generic association-list update with Python dict assignment
semantics: replace in place, else append. -/
def alistSet {α : Type} (m : List (String × α)) (k : String) (v : α) :
    List (String × α) :=
  if (m.find? (fun p => p.1 == k)).isSome then
    m.map (fun p => if p.1 == k then (k, v) else p)
  else
    m ++ [(k, v)]

/-- Python truthiness of a value (`bool(x)`). -/
def pyTruthy : PyVal → Bool
  | .none => false
  | .bool b => b
  | .num q => q != 0
  | .str s => s ≠ ""
  | .list xs => !xs.isEmpty
  | .dict d => !d.isEmpty

/-- Whether a value is the Python None singleton (`x is None`). -/
def pyIsNone : PyVal → Bool
  | .none => true
  | _ => false

/-- Whether a value can be a dict key (Python hashability): lists and
dicts are unhashable. -/
def pyHashable : PyVal → Bool
  | .list _ => false
  | .dict _ => false
  | _ => true

/-- Digit value of a character, if it is a decimal digit. -/
def digitVal? (c : Char) : Option ℕ :=
  if 48 ≤ c.toNat ∧ c.toNat ≤ 57 then some (c.toNat - 48) else Option.none

/-- Value of a nonempty all-digit character list, most significant
digit first. -/
def parseDigits? : List Char → Option ℕ
  | [] => Option.none
  | cs =>
    if cs.all (fun c => (digitVal? c).isSome) then
      some (cs.foldl (fun a c => 10 * a + ((digitVal? c).getD 0)) 0)
    else
      Option.none

/-- Model of Python `float(s)` on a string: an optional sign followed by
a decimal numeral with an optional fractional part.  (Exotic float
syntax such as exponents, inf and nan is not modelled; no claim depends
on which strings parse.) -/
def parseDecimal? (s : String) : Option ℚ :=
  let step : List Char → Option ℚ := fun cs =>
    let ip := cs.takeWhile (fun c => c ≠ '.')
    let rest := cs.dropWhile (fun c => c ≠ '.')
    match rest with
    | [] => (parseDigits? ip).map (fun n => (n : ℚ))
    | _ :: fp =>
      if fp.any (fun c => c = '.') then Option.none
      else if ip.isEmpty ∧ fp.isEmpty then Option.none
      else if ip.all (fun c => (digitVal? c).isSome) ∧
              fp.all (fun c => (digitVal? c).isSome) then
        some ((ip.foldl (fun a c => 10 * a + ((digitVal? c).getD 0)) 0 : ℚ) +
          (fp.foldl (fun a c => 10 * a + ((digitVal? c).getD 0)) 0 : ℚ) /
            (10 : ℚ) ^ fp.length)
      else Option.none
  match s.toList with
  | '+' :: cs => step cs
  | '-' :: cs => (step cs).map (fun q => -q)
  | cs => step cs

/-- Model of Python `float(x)` used by the numeric filter operators.
None: raised TypeError. -/
def pyFloat? : PyVal → Option ℚ
  | .bool b => some (if b then 1 else 0)
  | .num q => some q
  | .str s => parseDecimal? s
  | _ => Option.none

/-- Model of Python `str(x)` as used by the string filter operators.
Container and numeric renderings use the Lean Repr text rather than the
exact CPython repr; no claim depends on the rendered text. -/
def pyStr : PyVal → String
  | .none => "None"
  | .bool b => if b then "True" else "False"
  | .num q => toString q
  | .str s => s
  | v => reprStr v

/-- Whether the second string occurs as a contiguous substring of the
first (Python `b in a` on strings). -/
def strContains (hay nee : String) : Bool :=
  let h := hay.toList
  let n := nee.toList
  (List.range (h.length + 1)).any (fun i => ((h.drop i).take n.length) == n)

/-! ## Boolean filters (backend/pipeline/filters.py) -/

/-- Embeds a numeric operator of BooleanFilter.OPERATORS: both operands
pass through Python float conversion, a conversion failure is a raised
exception. -/
def numOp (f : ℚ → ℚ → Bool) (a b : PyVal) : Except Unit Bool :=
  match pyFloat? a, pyFloat? b with
  | some x, some y => .ok (f x y)
  | _, _ => .error ()

/-- Embeds the BooleanFilter.OPERATORS table lookup
(`OPERATORS.get(self.operator)`): the operator functions keyed by their
21 names, or Option.none for an unknown name.  The regex operator
`matches` is modelled for literal patterns only (a literal pattern
matches at the start of the subject); no claim depends on
metacharacter semantics. -/
def evalOp? : String → Option (PyVal → PyVal → Except Unit Bool)
  | "equals" => some (fun a b => .ok (pyEq a b))
  | "==" => some (fun a b => .ok (pyEq a b))
  | "not_equals" => some (fun a b => .ok (!pyEq a b))
  | "!=" => some (fun a b => .ok (!pyEq a b))
  | "greater_than" => some (numOp (fun x y => decide (x > y)))
  | ">" => some (numOp (fun x y => decide (x > y)))
  | "less_than" => some (numOp (fun x y => decide (x < y)))
  | "<" => some (numOp (fun x y => decide (x < y)))
  | "greater_equal" => some (numOp (fun x y => decide (x ≥ y)))
  | ">=" => some (numOp (fun x y => decide (x ≥ y)))
  | "less_equal" => some (numOp (fun x y => decide (x ≤ y)))
  | "<=" => some (numOp (fun x y => decide (x ≤ y)))
  | "contains" => some (fun a b => .ok (strContains (pyStr a) (pyStr b)))
  | "not_contains" => some (fun a b => .ok (!strContains (pyStr a) (pyStr b)))
  | "starts_with" => some (fun a b => .ok ((pyStr a).startsWith (pyStr b)))
  | "ends_with" => some (fun a b => .ok ((pyStr a).endsWith (pyStr b)))
  | "matches" => some (fun a b => .ok ((pyStr a).startsWith (pyStr b)))
  | "is_true" => some (fun a _ => .ok (pyTruthy a))
  | "is_false" => some (fun a _ => .ok (!pyTruthy a))
  | "is_null" => some (fun a _ => .ok (pyIsNone a))
  | "is_not_null" => some (fun a _ => .ok (!pyIsNone a))
  | _ => Option.none

/-- The `unary_ops` list of BooleanFilter.evaluate. -/
def unaryOps : List String := ["is_null", "is_not_null", "is_true", "is_false"]

/-- Embeds `field_path.split(".")`. -/
def splitPath (s : String) : List String := s.splitOn "."

/-- Embeds BooleanFilter._resolve_path: walk the key list, descending
only through dictionaries, a missing key or non-dict intermediate
yields None. -/
def resolvePath : PyVal → List String → PyVal
  | v, [] => v
  | .dict d, k :: ks => resolvePath (pyGetD d k .none) ks
  | _, _ :: _ => .none

/-- Embeds BooleanFilter._get_nested_value: resolve the dot path at the
payload root and, if that yields None and the payload has a dict-valued
`data` key, retry inside it. -/
def getNestedValue (data : PyVal) (fieldPath : String) : PyVal :=
  let v := resolvePath data (splitPath fieldPath)
  if pyIsNone v then
    match data with
    | .dict d =>
      match dictGet? d "data" with
      | some (.dict dd) => resolvePath (.dict dd) (splitPath fieldPath)
      | _ => v
    | _ => v
  else v

/-- Embeds the try block of BooleanFilter.evaluate.  A non-string
`field` raises when the dot path is split (modelled as `.error`); a
non-string or unknown operator takes the unknown-operator branch which
returns False; for a non-unary operator a None comparand or a None
field value short-circuits to False; otherwise the operator function is
applied and may itself raise. -/
def boolFilterCore (field operator value eventData : PyVal) : Except Unit Bool :=
  match field with
  | .str fp =>
    let fieldValue := getNestedValue eventData fp
    match operator with
    | .str op =>
      match evalOp? op with
      | Option.none => .ok false
      | some f =>
        if op ∈ unaryOps then f fieldValue value
        else if pyIsNone value then .ok false
        else if pyIsNone fieldValue then .ok false
        else f fieldValue value
    | _ => .ok false
  | _ => .error ()

/-- Embeds BooleanFilter.evaluate: the try block with the enclosing
except handler that turns any raised exception into False. -/
def boolFilterEval (field operator value eventData : PyVal) : Bool :=
  match boolFilterCore field operator value eventData with
  | .ok b => b
  | .error _ => false

/-! ## Time-window and composite filters, and the filter factory -/

/-- A materialized filter component: the three variants constructed by
Filter.from_config.  Configuration entries are kept as raw PyVal
values, as the Python constructors keep them. -/
inductive FilterComp where
  | boolean (field operator value : PyVal)
  | timeWindow (startTime endTime daysOfWeek : PyVal)
  | composite (operator : PyVal) (children : List FilterComp)

/-- Embeds TimeWindowFilter._parse_time: split on ":" and build a time
from the first two pieces; anything else raises. -/
def parseHM? : PyVal → Option (ℕ × ℕ)
  | .str s =>
    match s.splitOn ":" with
    | p0 :: p1 :: _ =>
      match parseDigits? p0.toList, parseDigits? p1.toList with
      | some h, some m =>
        if h < 24 ∧ m < 60 then some (h, m) else Option.none
      | _, _ => Option.none
    | _ => Option.none
  | _ => Option.none

/-- The current local instant as TimeWindowFilter.evaluate observes it:
weekday (0 = Monday) and the second of the day. -/
structure LocalNow where
  weekday : ℕ
  secOfDay : ℕ

/-- Membership of the current weekday in the configured day list,
Python `current_day in days`; iterating a non-list raises. -/
def dayMem? (day : ℕ) : PyVal → Option Bool
  | .list xs => some (xs.any (fun x => pyEq x (.num day)))
  | _ => Option.none

mutual

/-- Embeds Filter.evaluate for a materialized component.  The boolean
variant is boolFilterEval; the time-window variant embeds
TimeWindowFilter.evaluate (weekday check, then the possibly-overnight
window, comparing times as seconds of the day, with raised parse errors
turned into False by the except handler); the composite variant embeds
CompositeFilter.evaluate. -/
def evalFilter (now : LocalNow) (f : FilterComp) (d : PyVal) : Bool :=
  match f with
  | .boolean field operator value => boolFilterEval field operator value d
  | .timeWindow startTime endTime daysOfWeek =>
    let dayOk : Option Bool :=
      if pyIsNone daysOfWeek then some true
      else dayMem? now.weekday daysOfWeek
    match dayOk with
    | Option.none => false
    | some false => false
    | some true =>
      if pyTruthy startTime ∧ pyTruthy endTime then
        match parseHM? startTime, parseHM? endTime with
        | some (sh, sm), some (eh, em) =>
          let s := sh * 3600 + sm * 60
          let e := eh * 3600 + em * 60
          if s ≤ e then
            decide (s ≤ now.secOfDay ∧ now.secOfDay ≤ e)
          else
            decide (now.secOfDay ≥ s ∨ now.secOfDay ≤ e)
        | _, _ => false
      else true
  | .composite _ [] => true
  | .composite operator (c0 :: rest) =>
    match operator with
    | .str "and" => evalFilterList now (c0 :: rest) d true
    | .str "or" => evalFilterList now (c0 :: rest) d false
    | .str "not" => !evalFilter now c0 d
    | _ => false
termination_by (sizeOf f, 1)

/-- Evaluates the composite children under `all` (conj = true) or `any`
(conj = false). -/
def evalFilterList (now : LocalNow) (children : List FilterComp)
    (d : PyVal) (conj : Bool) : Bool :=
  match children with
  | [] => conj
  | c :: cs =>
    if conj then evalFilter now c d && evalFilterList now cs d conj
    else evalFilter now c d || evalFilterList now cs d conj
termination_by (sizeOf children, 0)

end

/-- Embeds Filter.from_config (and the create_filter wrapper): a
construction-time failure (unknown type tag, malformed configuration,
or a raised attribute error on a non-dict) is an error value.  Nested
composite construction recurses on an explicit fuel bound, standing for
the CPython recursion limit. -/
def createFilter : ℕ → PyVal → Except String FilterComp
  | 0, _ => .error "maximum recursion depth exceeded"
  | fuel + 1, config =>
    match config with
    | .dict cfg =>
      let ftypeV := pyGetD cfg "type" (.str "boolean")
      let paramsRaw := pyGetD cfg "params" (.dict [])
      let params := if pyTruthy paramsRaw then paramsRaw else .dict []
      match ftypeV with
      | .str "boolean" =>
        match params with
        | .dict p =>
          .ok (.boolean (pyGetD p "field" (.str ""))
            (pyGetD p "operator" (.str "equals"))
            (pyGetD p "value" .none))
        | _ => .error "AttributeError: params is not a dict"
      | .str "time_window" =>
        match params with
        | .dict p =>
          .ok (.timeWindow (pyGetD p "start_time" .none)
            (pyGetD p "end_time" .none)
            (pyGetD p "days_of_week" .none))
        | _ => .error "AttributeError: params is not a dict"
      | .str "composite" =>
        match params with
        | .dict p =>
          match pyGetD p "filters" (.list []) with
          | .list configs =>
            (configs.mapM (createFilter fuel)).map
              (fun children => .composite (pyGetD p "operator" (.str "and")) children)
          | _ => .error "TypeError: filters is not iterable"
        | _ => .error "AttributeError: params is not a dict"
      | _ => .error "Unknown filter type"
    | _ => .error "AttributeError: config is not a dict"

/-! ## Transformers (backend/pipeline/transformers.py) -/

/-- A materialized transformer component: the five variants constructed
by Transformer.from_config, each keeping its raw configuration entries
as the Python constructors do. -/
inductive TransformerComp where
  | passthrough
  | extractField (fields outputKey flatten : PyVal)
  | formatString (template outputKey : PyVal)
  | math (field operation operand outputKey : PyVal)
  | jsonPath (path outputKey : PyVal)

/-- `d.get(k, default)` on an arbitrary value: the dictionary case of
pyGetD; on a non-dict the Python attribute error is elided and the
default returned (callers that would observe the difference are noted
at their definitions). -/
def pyValGetD (v : PyVal) (k : String) (dflt : PyVal) : PyVal :=
  match v with
  | .dict d => pyGetD d k dflt
  | _ => dflt

/-- Embeds Transformer.from_config (and the create_transformer
wrapper): five known type tags, anything else is a construction-time
ValueError. -/
def createTransformer (config : PyVal) : Except String TransformerComp :=
  match config with
  | .dict cfg =>
    let ttypeV := pyGetD cfg "type" (.str "passthrough")
    let paramsRaw := pyGetD cfg "params" (.dict [])
    let params := if pyTruthy paramsRaw then paramsRaw else .dict []
    match params with
    | .dict p =>
      match ttypeV with
      | .str "extract_field" =>
        .ok (.extractField (pyGetD p "fields" (.list []))
          (pyGetD p "output_key" (.str "extracted"))
          (pyGetD p "flatten" (.bool false)))
      | .str "format_string" =>
        .ok (.formatString (pyGetD p "template" (.str ""))
          (pyGetD p "output_key" (.str "formatted")))
      | .str "math" =>
        .ok (.math (pyGetD p "field" (.str ""))
          (pyGetD p "operation" (.str "add"))
          (pyGetD p "operand" (.num 0))
          (pyGetD p "output_key" (.str "result")))
      | .str "json_path" =>
        .ok (.jsonPath (pyGetD p "path" (.str "$"))
          (pyGetD p "output_key" (.str "json_result")))
      | .str "passthrough" => .ok .passthrough
      | _ => .error "Unknown transformer type"
    | _ => .error "AttributeError: params is not a dict"
  | _ => .error "AttributeError: config is not a dict"

/-- Embeds ExtractFieldTransformer._get_nested_value: like the plain
dot-path walk but also descending into lists when the key is a decimal
index. -/
def resolvePathX : PyVal → List String → PyVal
  | v, [] => v
  | .dict d, k :: ks => resolvePathX (pyGetD d k .none) ks
  | .list xs, k :: ks =>
    match parseDigits? k.toList with
    | some idx => resolvePathX ((xs.get? idx).getD .none) ks
    | Option.none => .none
  | _, _ :: _ => .none

/-- Embeds ExtractFieldTransformer.transform: copy the listed dot paths
into a sub-dictionary stored under the output key; when flatten is
truthy the last path segment is used as the key.  A malformed
configuration or payload raises inside the try block and the original
payload is returned. -/
def extractFieldTransform (fields outputKey flatten : PyVal)
    (eventData : PyVal) : PyVal :=
  match eventData, fields, outputKey with
  | .dict ed, .list fs, .str ok =>
    if fs.all (fun f => match f with | .str _ => true | _ => false) then
      let extracted := fs.foldl (fun acc f =>
        match f with
        | .str fp =>
          let v := resolvePathX eventData (splitPath fp)
          let key := if pyTruthy flatten then
              ((splitPath fp).getLast?).getD "" else fp
          dictSet acc key v
        | _ => acc) []
      .dict (dictSet ed ok (.dict extracted))
    else eventData
  | _, _, _ => eventData

/-- The two brace characters, named to keep them out of string
literals. -/
def lbrace : Char := Char.ofNat 123

/-- Closing brace character. -/
def rbrace : Char := Char.ofNat 125

/-- Splits a character list at the first closing brace, returning the
body before it and the remainder after it. -/
def braceSplit? : List Char → Option (List Char × List Char)
  | [] => Option.none
  | c :: cs =>
    if c = rbrace then some ([], cs)
    else (braceSplit? cs).map (fun p => (c :: p.1, p.2))

/-- Embeds the placeholder scan of FormatStringTransformer.transform
(re.findall of brace-delimited nonempty bodies, scanning left to right
without overlap).  The fuel starts above the text length; each step
consumes at least one character. -/
def findPlaceholdersGo : ℕ → List Char → List String
  | 0, _ => []
  | _ + 1, [] => []
  | fuel + 1, c :: cs =>
    if c = lbrace then
      match braceSplit? cs with
      | some (body, rest) =>
        if body.isEmpty then findPlaceholdersGo fuel cs
        else String.mk body :: findPlaceholdersGo fuel rest
      | Option.none => []
    else findPlaceholdersGo fuel cs

/-- All placeholder bodies of a template. -/
def findPlaceholders (cs : List Char) : List String :=
  findPlaceholdersGo (cs.length + 1) cs

/-- Embeds FormatStringTransformer.transform: substitute each
placeholder with the stringified resolved value (empty string for
None) and store the result under the output key. -/
def formatStringTransform (template outputKey : PyVal)
    (eventData : PyVal) : PyVal :=
  match eventData, template, outputKey with
  | .dict ed, .str tpl, .str ok =>
    let formatted := (findPlaceholders tpl.toList).foldl (fun acc ph =>
      let v := resolvePath eventData (splitPath ph)
      let rep := if pyIsNone v then "" else pyStr v
      acc.replace (String.mk (lbrace :: (ph.toList ++ [rbrace]))) rep) tpl
    .dict (dictSet ed ok (.str formatted))
  | _, _, _ => eventData

/-- Round-half-to-even on rationals (CPython round). -/
def roundEven (q : ℚ) : ℤ :=
  let f := ⌊q⌋
  let frac := q - f
  if frac < 1/2 then f
  else if frac > 1/2 then f + 1
  else if f % 2 = 0 then f else f + 1

/-- Python int() truncation toward zero. -/
def truncInt (q : ℚ) : ℤ := if 0 ≤ q then ⌊q⌋ else ⌈q⌉

/-- Python float modulo (sign follows the divisor). -/
def pyMod (a b : ℚ) : ℚ := a - b * ⌊a / b⌋

/-- Whether the operation tag is a key of MathTransformer.OPERATIONS. -/
def mathOpKnown : String → Bool
  | "add" | "subtract" | "multiply" | "divide" | "modulo" | "power"
  | "min" | "max" | "abs" | "round" => true
  | _ => false

/-- Embeds the MathTransformer.OPERATIONS entry for a known tag applied
to two floats.  Division and modulo by zero yield zero as in the
source; a power with a non-integer exponent (an irrational float in
general) and zero to a negative power are modelled as raised errors (no
claim depends on them); round follows CPython round-half-even with the
digit count truncated to an integer. -/
def mathApply? (operation : String) (a b : ℚ) : Option ℚ :=
  match operation with
  | "add" => some (a + b)
  | "subtract" => some (a - b)
  | "multiply" => some (a * b)
  | "divide" => some (if b ≠ 0 then a / b else 0)
  | "modulo" => some (if b ≠ 0 then pyMod a b else 0)
  | "power" =>
    if b.den = 1 then
      if a = 0 ∧ b < 0 then Option.none else some (a ^ b.num)
    else Option.none
  | "min" => some (min a b)
  | "max" => some (max a b)
  | "abs" => some |a|
  | "round" =>
    if b ≠ 0 then
      let n := truncInt b
      some ((roundEven (a * (10 : ℚ) ^ n) : ℚ) / (10 : ℚ) ^ n)
    else some (roundEven a : ℚ)
  | _ => Option.none

/-- Embeds MathTransformer.transform: resolve the field, apply the
operation to float conversions of the value and the operand, store the
result under the output key; a None field value, an unknown operation,
or a raised conversion error returns the original payload. -/
def mathTransform (field operation operand outputKey : PyVal)
    (eventData : PyVal) : PyVal :=
  match eventData, field, operation, outputKey with
  | .dict ed, .str fp, .str op, .str ok =>
    let v := resolvePath eventData (splitPath fp)
    if pyIsNone v then eventData
    else if mathOpKnown op then
      match pyFloat? v, pyFloat? operand with
      | some a, some b =>
        match mathApply? op a b with
        | some r => .dict (dictSet ed ok (.num r))
        | Option.none => eventData
      | _, _ => eventData
    else eventData
  | _, _, _, _ => eventData

/-- Embeds JsonPathTransformer._eval_path: either a leading
bracket-index step `field?[idx]rest` or a plain field access, recursing
on the remaining path.  The fuel starts above the path length; each
step consumes at least one character. -/
def jsonEvalPath : ℕ → PyVal → List Char → PyVal
  | 0, _, _ => .none
  | _ + 1, data, [] => data
  | fuel + 1, data, path =>
    let pre := path.takeWhile (fun c => c ≠ '[' ∧ c ≠ ']')
    let rest0 := path.dropWhile (fun c => c ≠ '[' ∧ c ≠ ']')
    let fieldStep : PyVal :=
      let fld := path.takeWhile (fun c => c ≠ '.')
      let rest := (path.dropWhile (fun c => c ≠ '.')).drop 1
      match data with
      | .dict dd => jsonEvalPath fuel (pyGetD dd (String.mk fld) .none) rest
      | _ => .none
    match rest0 with
    | '[' :: r1 =>
      let ds := r1.takeWhile (fun c => (digitVal? c).isSome)
      let r2 := r1.dropWhile (fun c => (digitVal? c).isSome)
      match r2 with
      | ']' :: rest =>
        if ds.isEmpty then fieldStep
        else
          let d1 := if pre.isEmpty then data
            else match data with
              | .dict dd => pyGetD dd (String.mk pre) .none
              | _ => .none
          let idx := (parseDigits? ds).getD 0
          let d2 := match d1 with
            | .list xs => (xs.get? idx).getD .none
            | .none => .none
            | other => other
          jsonEvalPath fuel d2 (rest.dropWhile (fun c => c = '.'))
      | _ => fieldStep
    | _ => fieldStep

/-- Embeds JsonPathTransformer.transform: strip a leading `$` and `.`,
evaluate the restricted JSON path against the payload, and store the
value under the output key. -/
def jsonPathTransform (path outputKey : PyVal) (eventData : PyVal) : PyVal :=
  match eventData, path, outputKey with
  | .dict ed, .str p, .str ok =>
    let p1 := if p.startsWith "$" then p.drop 1 else p
    let p2 := if p1.startsWith "." then p1.drop 1 else p1
    let v := jsonEvalPath (p2.length + 1) eventData p2.toList
    .dict (dictSet ed ok v)
  | _, _, _ => eventData

/-- Embeds Transformer.transform dispatch on a materialized
component. -/
def applyTransformer : TransformerComp → PyVal → PyVal
  | .passthrough, d => d
  | .extractField fields ok fl, d => extractFieldTransform fields ok fl d
  | .formatString tpl ok, d => formatStringTransform tpl ok d
  | .math f op opd ok, d => mathTransform f op opd ok d
  | .jsonPath p ok, d => jsonPathTransform p ok d

/-! ## Execution policies (backend/pipeline/policies.py) -/

/-- The execution context the pipeline executor builds for an action
node (executor.py, PipelineExecutor._process_pipeline): exactly the
keys event, pipeline_id, node_id and params.  The field
hasExecuteCallback records whether the dictionary carries the
`_execute_callback` entry that DebouncePolicy.should_execute looks up;
the executor never adds it. -/
structure ExecCtx where
  event : PyVal
  pipelineId : ℤ
  nodeId : String
  params : PyVal
  hasExecuteCallback : Bool
deriving Repr

/-- Embeds the context construction of
PipelineExecutor._process_pipeline for an action node: the four listed
keys and nothing else, so `context.get("_execute_callback")` yields
None. -/
def executorContext (eventData : PyVal) (pipelineId : ℤ) (nodeId : String)
    (params : PyVal) : ExecCtx :=
  { event := eventData, pipelineId := pipelineId, nodeId := nodeId,
    params := params, hasExecuteCallback := false }

/-- A materialized execution policy: the five variants constructed by
ExecutionPolicy.from_config, keeping their raw configuration values ( a
construction stores whatever object the configuration holds). -/
inductive PolicyComp where
  | noPolicy
  | debounce (delaySeconds : PyVal)
  | rateLimit (maxExecutions windowSeconds : PyVal)
  | cooldown (cooldownSeconds : PyVal)
  | conditional (condition : PyVal)
deriving Repr

/-- Embeds ExecutionPolicy.from_config (and the create_policy wrapper):
five known type tags, anything else raises ValueError.  Note the
composite policy of the source is not reachable through from_config.  A
truthy non-dict params raises at construction when the variant reads
its entries. -/
def createPolicy (config : PyVal) : Except String PolicyComp :=
  match config with
  | .dict cfg =>
    let ptypeV := pyGetD cfg "type" (.str "none")
    let paramsRaw := pyGetD cfg "params" (.dict [])
    let params := if pyTruthy paramsRaw then paramsRaw else .dict []
    match params with
    | .dict p =>
      match ptypeV with
      | .str "debounce" => .ok (.debounce (pyGetD p "delay_seconds" (.num 1)))
      | .str "rate_limit" =>
        .ok (.rateLimit (pyGetD p "max_executions" (.num 5))
          (pyGetD p "window_seconds" (.num 60)))
      | .str "conditional" => .ok (.conditional (pyGetD p "condition" (.dict [])))
      | .str "cooldown" => .ok (.cooldown (pyGetD p "cooldown_seconds" (.num 10)))
      | .str "none" => .ok .noPolicy
      | _ => .error "Unknown policy type"
    | _ => .error "AttributeError: params is not a dict"
  | _ => .error "AttributeError: config is not a dict"

/-- Numeric reading of a configuration value where Python arithmetic
would accept it (bool is an int in Python); anything else raises at the
use site. -/
def qOf? : PyVal → Option ℚ
  | .num q => some q
  | .bool b => some (if b then 1 else 0)
  | _ => Option.none

/-- Embeds RateLimitPolicy.should_execute for one key: prune the
recorded timestamps to those strictly inside the window ending now
(`t > now - window`), store the pruned list back, and admit exactly
when the pruned count is below the maximum. -/
def rlShould (maxExecutions : ℚ) (window : ℚ) (now : ℚ) (st : List ℚ) :
    Bool × List ℚ :=
  let pruned := st.filter (fun t => now - window < t)
  (decide ((pruned.length : ℚ) < maxExecutions), pruned)

/-- Embeds RateLimitPolicy.on_execute for one key: append the current
time. -/
def rlRecord (now : ℚ) (st : List ℚ) : List ℚ := st ++ [now]

/-- One admitted-or-skipped round of the executor for a rate-limited
action at time t: should_execute prunes and decides; on_execute records
the time when the action ran. -/
def rlStep (maxExecutions : ℚ) (window : ℚ) (st : List ℚ) (t : ℚ) :
    Bool × List ℚ :=
  let (ok, pruned) := rlShould maxExecutions window t st
  if ok then (true, rlRecord t pruned) else (false, pruned)

/-- The times admitted by a rate-limited action across a sequence of
event times processed in order (the executor awaits each traversal, so
rounds do not interleave). -/
def rlRun (maxExecutions : ℚ) (window : ℚ) : List ℚ → List ℚ → List ℚ
  | _, [] => []
  | st, t :: ts =>
    let (ok, st2) := rlStep maxExecutions window st t
    if ok then t :: rlRun maxExecutions window st2 ts
    else rlRun maxExecutions window st2 ts

/-- Embeds CooldownPolicy.should_execute for one key: admit when there
is no prior execution or the elapsed time has reached the configured
cooldown; a non-numeric configured cooldown raises on comparison. -/
def cooldownShould (cooldownSeconds : PyVal) (now : ℚ) (last : Option ℚ) :
    Except Unit Bool :=
  match last with
  | Option.none => .ok true
  | some t =>
    match qOf? cooldownSeconds with
    | some c => .ok (decide (¬ (now - t < c)))
    | Option.none => .error ()

/-- Fuel bound for recursive configuration factories, standing for the
CPython recursion limit (sys.getrecursionlimit() defaults to 1000). -/
def recLimit : ℕ := 1000

/-- Per-executor policy state, keyed by the `{pipeline_id}_{node_id}`
string exactly as the source keys its dictionaries: recorded times for
rate limits, last execution for cooldowns, and the scheduled fire time
of a pending debounce timer. -/
structure PolState where
  rl : List (String × List ℚ) := []
  cd : List (String × ℚ) := []
  dbPending : List (String × ℚ) := []
deriving Repr

/-- Embeds ExecutionPolicy.should_execute dispatch as the executor
invokes it (await of the per-variant coroutine).  The error value
models an exception raised inside should_execute, which the executor
does not catch.  The debounce variant always answers False after
cancelling a pending unfired timer, and schedules a new timer only when
the context carries `_execute_callback`. -/
def policyShould (pol : PolicyComp) (key : String) (now : ℚ)
    (lnow : LocalNow) (ctx : ExecCtx) (st : PolState) :
    Except Unit (Bool × PolState) :=
  match pol with
  | .noPolicy => .ok (true, st)
  | .debounce delaySeconds =>
    let cancelled := { st with dbPending := st.dbPending.filter (fun p => p.1 ≠ key) }
    if ctx.hasExecuteCallback then
      match qOf? delaySeconds with
      | some d =>
        .ok (false, { cancelled with dbPending := alistSet cancelled.dbPending key (now + d) })
      | Option.none => .ok (false, cancelled)
    else .ok (false, cancelled)
  | .rateLimit maxExecutions windowSeconds =>
    match qOf? windowSeconds, qOf? maxExecutions with
    | some w, some m =>
      let r := rlShould m w now ((alistGet? st.rl key).getD [])
      .ok (r.1, { st with rl := alistSet st.rl key r.2 })
    | _, _ => .error ()
  | .cooldown cooldownSeconds =>
    (cooldownShould cooldownSeconds now (alistGet? st.cd key)).map
      (fun b => (b, st))
  | .conditional condition =>
    if ¬ pyTruthy condition then .ok (true, st)
    else
      let eventData := pyValGetD ctx.event "data" (.dict [])
      match createFilter recLimit condition with
      | .ok f => .ok (evalFilter lnow f eventData, st)
      | .error _ => .ok (true, st)

/-- Embeds ExecutionPolicy.on_execute dispatch: rate limits append the
time, cooldowns store it, the rest are no-ops. -/
def policyOn (pol : PolicyComp) (key : String) (now : ℚ) (st : PolState) :
    PolState :=
  match pol with
  | .rateLimit _ _ =>
    { st with rl := alistSet st.rl key (rlRecord now ((alistGet? st.rl key).getD [])) }
  | .cooldown _ => { st with cd := alistSet st.cd key now }
  | _ => st

/-! ## The debounce timer machine (DebouncePolicy together with the
asyncio timer it spawns) -/

/-- One should_execute call of DebouncePolicy at a given time: a
pending timer whose fire time has passed already fired and produced its
invocation; a pending unfired timer is cancelled; a new timer at
now + delay is created only when the context supplies
`_execute_callback`. -/
def debounceStep (d : ℚ)
    (acc : List (ℚ × ExecCtx) × Option (ℚ × ExecCtx)) (ev : ℚ × ExecCtx) :
    List (ℚ × ExecCtx) × Option (ℚ × ExecCtx) :=
  let fired := match acc.2 with
    | some (ft, c) => if ft ≤ ev.1 then acc.1 ++ [(ft, c)] else acc.1
    | Option.none => acc.1
  let pending := if ev.2.hasExecuteCallback then some (ev.1 + d, ev.2)
    else Option.none
  (fired, pending)

/-- All invocations the debounce timer machine performs for a sequence
of events on one key: the timers that fired during the sequence plus
the final pending timer, which fires once the burst goes quiet.  Each
invocation is the fire time paired with the context whose callback
runs. -/
def debounceInvocations (d : ℚ) (events : List (ℚ × ExecCtx)) :
    List (ℚ × ExecCtx) :=
  let acc := events.foldl (debounceStep d) ([], Option.none)
  acc.1 ++ acc.2.toList

/-! ## SignalEvent and its serialization (backend/signals/base.py)

The timestamp is a naive UTC datetime; `datetime.isoformat()` renders
it as `YYYY-MM-DDTHH:MM:SS` followed by `.ffffff` exactly when the
microsecond field is nonzero, and `datetime.fromisoformat` parses that
shape back.  Strings of digits are modelled as lists of character
codes so that the encoding is explicit. -/

/-- A naive Python datetime (tzinfo-free, as datetime.utcnow returns). -/
structure PyDatetime where
  year : ℕ
  month : ℕ
  day : ℕ
  hour : ℕ
  minute : ℕ
  second : ℕ
  microsecond : ℕ
deriving Repr, DecidableEq

/-- The k decimal digits of n, most significant first, with leading
zeros (the zero-padded rendering used by isoformat). -/
def digitsBE : ℕ → ℕ → List ℕ
  | 0, _ => []
  | k + 1, n => digitsBE k (n / 10) ++ [n % 10]

/-- Value of a big-endian digit list. -/
def fromDigitsBE (ds : List ℕ) : ℕ := ds.foldl (fun a d => 10 * a + d) 0

/-- Character codes of the k-digit zero-padded rendering of n. -/
def encDigits (k n : ℕ) : List ℕ := (digitsBE k n).map (fun d => d + 48)

/-- Whether a character code is a decimal digit. -/
def isDigitCode (c : ℕ) : Bool := decide (48 ≤ c ∧ c ≤ 57)

/-- Parse an all-digit code list back to its value. -/
def decDigits? (cs : List ℕ) : Option ℕ :=
  if cs.all isDigitCode then
    some (fromDigitsBE (cs.map (fun c => c - 48)))
  else Option.none

/-- Take a fixed-width digit field off the front of a code list. -/
def chopDigits? (k : ℕ) (cs : List ℕ) : Option (ℕ × List ℕ) :=
  (decDigits? (cs.take k)).map (fun n => (n, cs.drop k))

/-- Take an expected separator character off the front. -/
def chopSep? (c : ℕ) (cs : List ℕ) : Option (List ℕ) :=
  match cs with
  | c2 :: rest => if c2 = c then some rest else Option.none
  | [] => Option.none

/-- Embeds datetime.isoformat on a naive datetime: the character codes
of `YYYY-MM-DDTHH:MM:SS[.ffffff]`, the fractional part present exactly
when the microsecond is nonzero.  Codes 45, 84, 58 and 46 are the
hyphen, T, colon and dot. -/
def isoCodes (t : PyDatetime) : List ℕ :=
  encDigits 4 t.year ++ (45 :: (encDigits 2 t.month ++ (45 ::
    (encDigits 2 t.day ++ (84 :: (encDigits 2 t.hour ++ (58 ::
      (encDigits 2 t.minute ++ (58 :: (encDigits 2 t.second ++
        (if t.microsecond = 0 then [] else 46 :: encDigits 6 t.microsecond)))))))))))

/-- The optional fractional-second tail of an isoformat rendering:
absent (microsecond zero) or a dot (code 46) followed by exactly six
digits. -/
def parseFrac? : List ℕ → Option ℕ
  | [] => some 0
  | c :: us6 => if c = 46 ∧ us6.length = 6 then decDigits? us6 else Option.none

/-- Embeds datetime.fromisoformat on the shapes isoformat emits: fixed
positions for the date and time fields and an optional six-digit
fractional part. -/
def parseIso? (cs : List ℕ) : Option PyDatetime := do
  let (y, r1) ← chopDigits? 4 cs
  let r2 ← chopSep? 45 r1
  let (mo, r3) ← chopDigits? 2 r2
  let r4 ← chopSep? 45 r3
  let (d, r5) ← chopDigits? 2 r4
  let r6 ← chopSep? 84 r5
  let (h, r7) ← chopDigits? 2 r6
  let r8 ← chopSep? 58 r7
  let (mi, r9) ← chopDigits? 2 r8
  let r10 ← chopSep? 58 r9
  let (s, r11) ← chopDigits? 2 r10
  let us ← parseFrac? r11
  pure ⟨y, mo, d, h, mi, s, us⟩

/-- Validity of a naive datetime, the ranges the datetime constructor
enforces (day bounds are not refined by month; only the digit widths
matter to the serialization). -/
def PyDatetime.Valid (t : PyDatetime) : Prop :=
  1 ≤ t.year ∧ t.year ≤ 9999 ∧ 1 ≤ t.month ∧ t.month ≤ 12 ∧
  1 ≤ t.day ∧ t.day ≤ 31 ∧ t.hour ≤ 23 ∧ t.minute ≤ 59 ∧
  t.second ≤ 59 ∧ t.microsecond ≤ 999999

instance (t : PyDatetime) : Decidable t.Valid := by
  unfold PyDatetime.Valid
  infer_instance

/-- The event_type vocabulary (signals/base.py EventType). -/
inductive EventTypeE where
  | valueChanged
  | thresholdCrossed
  | stateChanged
  | detected
  | created
  | modified
  | deleted
  | moved
deriving Repr, DecidableEq

/-- The string value of each EventType member. -/
def EventTypeE.value : EventTypeE → String
  | .valueChanged => "value_changed"
  | .thresholdCrossed => "threshold_crossed"
  | .stateChanged => "state_changed"
  | .detected => "detected"
  | .created => "created"
  | .modified => "modified"
  | .deleted => "deleted"
  | .moved => "moved"

/-- Embeds the EventType constructor applied to a string: the member
with that value, or a raised ValueError. -/
def eventTypeOf? : String → Option EventTypeE
  | "value_changed" => some .valueChanged
  | "threshold_crossed" => some .thresholdCrossed
  | "state_changed" => some .stateChanged
  | "detected" => some .detected
  | "created" => some .created
  | "modified" => some .modified
  | "deleted" => some .deleted
  | "moved" => some .moved
  | _ => Option.none

/-- A SignalEvent (signals/base.py dataclass): identifier, source tag,
source instance name, event type, timestamp, payload and metadata. -/
structure SignalEventR where
  id : String
  sourceType : String
  sourceName : String
  eventType : EventTypeE
  timestamp : PyDatetime
  data : PyVal
  metadata : PyVal

/-- The dictionary SignalEvent.to_dict produces: the same seven keys,
with the event type as its string value and the timestamp as its
isoformat rendering. -/
structure EventDict where
  id : String
  sourceType : String
  sourceName : String
  eventType : String
  timestamp : List ℕ
  data : PyVal
  metadata : PyVal

/-- Embeds SignalEvent.to_dict. -/
def toDict (e : SignalEventR) : EventDict :=
  { id := e.id, sourceType := e.sourceType, sourceName := e.sourceName,
    eventType := e.eventType.value, timestamp := isoCodes e.timestamp,
    data := e.data, metadata := e.metadata }

/-- Embeds SignalEvent.from_dict on a dictionary that carries all
seven keys (as every to_dict output does): the EventType constructor
and datetime.fromisoformat may raise on malformed entries. -/
def fromDict? (d : EventDict) : Option SignalEventR := do
  let et ← eventTypeOf? d.eventType
  let ts ← parseIso? d.timestamp
  pure (⟨d.id, d.sourceType, d.sourceName, et, ts, d.data, d.metadata⟩ :
    SignalEventR)

/-- The character string of a code list (used when the serialized
event is placed into a PyVal payload). -/
def stringOfCodes (cs : List ℕ) : String := String.mk (cs.map Char.ofNat)

/-- The payload dictionary the executor seeds a traversal with
(`event.to_dict()` as a Python dict value). -/
def eventToPayload (e : SignalEventR) : PyVal :=
  .dict [("id", .str e.id), ("source_type", .str e.sourceType),
    ("source_name", .str e.sourceName),
    ("event_type", .str e.eventType.value),
    ("timestamp", .str (stringOfCodes (isoCodes e.timestamp))),
    ("data", e.data), ("metadata", e.metadata)]

/-! ## The pipeline executor (backend/pipeline/executor.py) -/

/-- The runtime components a PipelineNode materializes: at most one of
filter, transformer, action (its registry tag) and, for action nodes,
the execution policy. -/
structure NodeComps where
  filter? : Option FilterComp := Option.none
  transformer? : Option TransformerComp := Option.none
  action? : Option String := Option.none
  policy? : Option PolicyComp := Option.none

/-- The keys of the ACTIONS registry (backend/actions/init): get_action
raises ValueError for anything else. -/
def actionRegistry : List String :=
  ["notification", "shell", "file_operation", "process_control", "network_control"]

/-- Embeds PipelineNode._initialize_component: the try block that
materializes the component for the node type; any raised exception is
caught and logged, leaving the components unset.  For an action node
the action is assigned before the policy is created, so a policy
construction error leaves the action set and the policy unset. -/
def initComponent (ntype : PyVal) (data : PyVal) : NodeComps :=
  match data with
  | .dict dd =>
    if pyEq ntype (.str "filter") then
      match createFilter recLimit (pyGetD dd "filter" (.dict [])) with
      | .ok f => { filter? := some f }
      | .error _ => {}
    else if pyEq ntype (.str "transformer") then
      match createTransformer (pyGetD dd "transformer" (.dict [])) with
      | .ok t => { transformer? := some t }
      | .error _ => {}
    else if pyEq ntype (.str "action") then
      match pyGetD dd "action_type" (.str "notification") with
      | .str t =>
        if t ∈ actionRegistry then
          match createPolicy (pyGetD dd "policy" (.dict [("type", .str "none")])) with
          | .ok p => { action? := some t, policy? := some p }
          | .error _ => { action? := some t }
        else {}
      | _ => {}
    else {}
  | _ => {}

/-- A parsed pipeline node: identifier, raw type tag, raw data blob
and the materialized components. -/
structure PNode where
  id : String
  ntype : PyVal
  data : PyVal
  comps : NodeComps

/-- Embeds the node-parsing loop of Pipeline.init: each configuration
must be a dictionary carrying an `id` (node identifiers are strings
throughout the repository); `type` defaults to source and `data` to an
empty dict; nodes with a duplicate id overwrite in place as dict
assignment does.  A missing id is a KeyError that fails the load
before the executor state is touched. -/
def mkNodes (acc : List (String × PNode)) :
    List PyVal → Except String (List (String × PNode))
  | [] => .ok acc
  | nc :: rest =>
    match nc with
    | .dict c =>
      match dictGet? c "id" with
      | some (.str nid) =>
        let ntype := pyGetD c "type" (.str "source")
        let data := pyGetD c "data" (.dict [])
        mkNodes (alistSet acc nid ⟨nid, ntype, data, initComponent ntype data⟩) rest
      | some _ => .error "TypeError: node id is not a string"
      | Option.none => .error "KeyError: id"
    | _ => .error "AttributeError: node config is not a dict"

/-- Embeds the edge-parsing loop of Pipeline.init: each configuration
must carry id, source and target (source and target are node id
strings); edges are kept in insertion order. -/
def mkEdges (acc : List (String × String)) :
    List PyVal → Except String (List (String × String))
  | [] => .ok acc
  | ec :: rest =>
    match ec with
    | .dict c =>
      match dictGet? c "id", dictGet? c "source", dictGet? c "target" with
      | some _, some (.str s), some (.str t) => mkEdges (acc ++ [(s, t)]) rest
      | _, _, _ => .error "KeyError: edge field"
    | _ => .error "AttributeError: edge config is not a dict"

/-- Embeds the adjacency construction of Pipeline.init: per source
node id, the targets in edge insertion order. -/
def buildAdjacency (edges : List (String × String)) :
    List (String × List String) :=
  edges.foldl (fun adj e =>
    alistSet adj e.1 (((alistGet? adj e.1).getD []) ++ [e.2])) []

/-- A loaded pipeline: graph, adjacency list and active flag. -/
structure Pipeline where
  id : ℤ
  name : String
  isActive : Bool
  nodes : List (String × PNode)
  edges : List (String × String)
  adjacency : List (String × List String)

/-- Embeds Pipeline.init: parse nodes and edges (either can raise,
failing the load) and build the adjacency list; a new pipeline is
active. -/
def mkPipeline (pid : ℤ) (name : String) (nodes edges : List PyVal) :
    Except String Pipeline := do
  let ns ← mkNodes [] nodes
  let es ← mkEdges [] edges
  pure (⟨pid, name, true, ns, es, buildAdjacency es⟩ : Pipeline)

/-- Embeds Pipeline.get_source_nodes: the nodes whose type tag equals
source, in insertion order. -/
def getSourceNodes (p : Pipeline) : List PNode :=
  (p.nodes.map (fun q => q.2)).filter (fun n => pyEq n.ntype (.str "source"))

/-- Embeds Pipeline.get_connected_nodes, as the node ids: the
adjacency targets that exist in the node table. -/
def getConnectedNodes (p : Pipeline) (nid : String) : List String :=
  ((alistGet? p.adjacency nid).getD []).filter
    (fun tid => (alistGet? p.nodes tid).isSome)

/-- Integer-keyed association lookup (the pipelines table). -/
def zGet? {α : Type} (m : List (ℤ × α)) (k : ℤ) : Option α :=
  (m.find? (fun p => p.1 == k)).map (fun p => p.2)

/-- Integer-keyed association update with dict assignment semantics. -/
def zSet {α : Type} (m : List (ℤ × α)) (k : ℤ) (v : α) : List (ℤ × α) :=
  if (m.find? (fun p => p.1 == k)).isSome then
    m.map (fun p => if p.1 == k then (k, v) else p)
  else
    m ++ [(k, v)]

/-- PyVal-keyed association lookup (the subscription index is keyed by
whatever value the node data holds under source_type). -/
def pvaGet? {α : Type} (m : List (PyVal × α)) (k : PyVal) : Option α :=
  (m.find? (fun p => pyEq p.1 k)).map (fun p => p.2)

/-- PyVal-keyed association update with dict assignment semantics. -/
def pvaSet {α : Type} (m : List (PyVal × α)) (k : PyVal) (v : α) :
    List (PyVal × α) :=
  if (m.find? (fun p => pyEq p.1 k)).isSome then
    m.map (fun p => if pyEq p.1 k then (k, v) else p)
  else
    m ++ [(k, v)]

/-- The executor state the claims speak about: the pipeline table and
the subscription index (source_type value to pipeline ids). -/
structure ExecState where
  pipelines : List (ℤ × Pipeline) := []
  subscriptions : List (PyVal × List ℤ) := []

/-- Embeds the subscription-registration loop of
PipelineExecutor.load_pipeline: for each source node with a truthy
source_type, ensure the entry exists and append the pipeline id if
absent.  The loop itself can raise: `node.data.get("source_type", "")`
is an AttributeError when the node data blob is not a dict, and an
unhashable truthy source_type (a list or dict value) raises TypeError
at the `in` test.  The returned pair is the index as mutated so far
together with the raised exception, if any (the loop stops there, as
the Python loop does). -/
def registerSources (subs : List (PyVal × List ℤ)) (pid : ℤ) :
    List PNode → List (PyVal × List ℤ) × Option String
  | [] => (subs, Option.none)
  | n :: rest =>
    match n.data with
    | .dict dd =>
      let stv := pyGetD dd "source_type" (.str "")
      if pyTruthy stv then
        if pyHashable stv then
          let cur := (pvaGet? subs stv).getD []
          registerSources
            (if pid ∈ cur then subs else pvaSet subs stv (cur ++ [pid])) pid rest
        else (subs, some "TypeError: unhashable source_type")
      else registerSources subs pid rest
    | _ => (subs, some "AttributeError: node data is not a dict")

/-- Embeds PipelineExecutor.load_pipeline.  A graph build error raises
before the executor state is touched.  Once the pipeline is built it
is stored under its id FIRST; the subscription loop runs afterwards,
so an exception raised there (see registerSources) propagates out of
load_pipeline with the pipeline already registered and the index
partially updated.  The Option String component is the exception
escaping the call, Option.none when it returns normally. -/
def loadPipeline (st : ExecState) (pid : ℤ) (name : String)
    (nodes edges : List PyVal) : ExecState × Option String :=
  match mkPipeline pid name nodes edges with
  | .error e => (st, some e)
  | .ok p =>
    let r := registerSources st.subscriptions pid (getSourceNodes p)
    (⟨zSet st.pipelines pid p, r.1⟩, r.2)

/-- The part of an ActionResult the claims mention: which node executed
and the payload its context carried.  (Action.safe_execute also records
status, message, timing and errors; no claim depends on them.) -/
structure AResult where
  nodeId : String
  eventPayload : PyVal
deriving Repr

/-- The result of awaiting Action.safe_execute in the traversal, as
far as the claims observe it. -/
def safeExecute (ctx : ExecCtx) : AResult := ⟨ctx.nodeId, ctx.event⟩

/-- Embeds the node dispatch of PipelineExecutor._process_pipeline for
one dequeued node: source passes through, a filter that evaluates false
prunes (no enqueue), a transformer replaces the payload, an action runs
through the policy gate and executes; a missing component passes
through.  The returned payload is Option.none exactly when the source
does `continue` (a pruned filter or a policy skip); the error case is
an exception escaping a policy coroutine, which the executor does not
catch. -/
def dispatchNode (p : Pipeline) (nowQ : ℚ) (lnow : LocalNow) (node : PNode)
    (nid : String) (payload : PyVal) (st : PolState) :
    Except Unit (Option PyVal × PolState × List AResult) :=
  if pyEq node.ntype (.str "source") then .ok (some payload, st, [])
  else if pyEq node.ntype (.str "filter") then
    match node.comps.filter? with
    | some f =>
      if evalFilter lnow f payload then .ok (some payload, st, [])
      else .ok (Option.none, st, [])
    | Option.none => .ok (some payload, st, [])
  else if pyEq node.ntype (.str "transformer") then
    match node.comps.transformer? with
    | some t => .ok (some (applyTransformer t payload), st, [])
    | Option.none => .ok (some payload, st, [])
  else if pyEq node.ntype (.str "action") then
    match node.comps.action? with
    | some _ =>
      let ctx := executorContext payload p.id nid (pyValGetD node.data "params" (.dict []))
      let key := toString p.id ++ "_" ++ nid
      match node.comps.policy? with
      | some pol =>
        match policyShould pol key nowQ lnow ctx st with
        | .error e => .error e
        | .ok (false, st2) => .ok (Option.none, st2, [])
        | .ok (true, st2) =>
          let res := safeExecute ctx
          let st3 := policyOn pol key nowQ st2
          .ok (some payload, st3, [res])
      | Option.none => .ok (some payload, st, [safeExecute ctx])
    | Option.none => .ok (some payload, st, [])
  else .ok (some payload, st, [])

/-- What a finished traversal produced: the nodes in visit order, the
action results in execution order, the final policy state, and whether
the queue drained within the given fuel (the source loop has no fuel
bound; on a cyclic graph it does not terminate). -/
structure TraceResult where
  visits : List String
  results : List AResult
  polState : PolState
  finished : Bool
deriving Repr

/-- Embeds the BFS loop of PipelineExecutor._process_pipeline: pop the
head of the queue, skip unknown node ids, record the visit, dispatch,
and unless the dispatch pruned, enqueue every connected node with a
shallow copy of the current payload (payloads are values here; the
sharing behaviour of the Python shallow copy is treated by the heap
model below). -/
def processLoop (p : Pipeline) (nowQ : ℚ) (lnow : LocalNow) :
    ℕ → List (String × PyVal) → PolState → List String → List AResult →
    Except Unit TraceResult
  | 0, queue, st, visits, results => .ok ⟨visits, results, st, queue.isEmpty⟩
  | _ + 1, [], st, visits, results => .ok ⟨visits, results, st, true⟩
  | fuel + 1, (nid, payload) :: rest, st, visits, results =>
    match alistGet? p.nodes nid with
    | Option.none => processLoop p nowQ lnow fuel rest st visits results
    | some node =>
      match dispatchNode p nowQ lnow node nid payload st with
      | .error e => .error e
      | .ok (Option.none, st2, rs) =>
        processLoop p nowQ lnow fuel rest st2 (visits ++ [nid]) (results ++ rs)
      | .ok (some payload2, st2, rs) =>
        let queue2 := rest ++ (getConnectedNodes p nid).map (fun tid => (tid, payload2))
        processLoop p nowQ lnow fuel queue2 st2 (visits ++ [nid]) (results ++ rs)

/-- Embeds PipelineExecutor._process_pipeline: seed the queue with the
entry node and the serialized event, then run the BFS loop. -/
def processPipeline (p : Pipeline) (startNodeId : String) (e : SignalEventR)
    (nowQ : ℚ) (lnow : LocalNow) (fuel : ℕ) (st : PolState) :
    Except Unit TraceResult :=
  processLoop p nowQ lnow fuel [(startNodeId, eventToPayload e)] st [] []

/-! ## A heap model of Python dictionaries and dict.copy

The payload handed to each branch at a fan-out is produced by
`event_data.copy()` (executor.py line 318), the SHALLOW dict copy:
the new top-level dictionary is fresh, but every nested object,
including the `data` mapping, is shared by reference.  The pure payload
values used by the traversal model above cannot express that sharing,
so the copy is modelled here explicitly: a heap maps addresses to
dictionary bodies, values are primitives or references, and dict.copy
allocates a fresh address holding the same entries. -/

/-- A heap value: an immutable primitive or a reference into the heap. -/
inductive HVal where
  | prim : PyVal → HVal
  | ref : ℕ → HVal
deriving Repr

/-- A dictionary body on the heap. -/
abbrev HDict := List (String × HVal)

/-- A heap: the next fresh address and the allocated dictionaries. -/
structure Heap where
  next : ℕ
  store : List (ℕ × HDict)
deriving Repr

/-- Whether a heap value only references addresses below the bound. -/
def HVal.refBelow (v : HVal) (n : ℕ) : Bool :=
  match v with
  | .ref a => decide (a < n)
  | .prim _ => true

/-- Heap well-formedness: every allocated address and every reference
stored in a dictionary lies below the allocation counter. -/
def Heap.wf (h : Heap) : Prop :=
  (∀ p ∈ h.store, p.1 < h.next) ∧
  (∀ p ∈ h.store, ∀ e ∈ p.2, HVal.refBelow e.2 h.next = true)

instance (h : Heap) : Decidable h.wf := by
  unfold Heap.wf
  infer_instance

/-- The dictionary body at an address (empty for a dangling address). -/
def lookupAddr (h : Heap) (a : ℕ) : HDict :=
  ((h.store.find? (fun p => p.1 == a)).map (fun p => p.2)).getD []

/-- Generic association update used on heap dictionary bodies. -/
def hdictSet (d : HDict) (k : String) (v : HVal) : HDict :=
  if (d.find? (fun p => p.1 == k)).isSome then
    d.map (fun p => if p.1 == k then (k, v) else p)
  else
    d ++ [(k, v)]

/-- Embeds Python `d.copy()` on the dictionary at address a: allocate a
fresh address holding the same entries (nested references shared). -/
def shallowCopy (h : Heap) (a : ℕ) : Heap × ℕ :=
  ({ next := h.next + 1, store := (h.next, lookupAddr h a) :: h.store }, h.next)

/-- Embeds the top-level store `d[k] = v` on the dictionary at address
a. -/
def setTop (h : Heap) (a : ℕ) (k : String) (v : HVal) : Heap :=
  { h with store := h.store.map (fun p =>
      if p.1 == a then (p.1, hdictSet p.2 k v) else p) }

/-- Top-level read `d.get(k)` through an address. -/
def topGet (h : Heap) (a : ℕ) (k : String) : Option HVal :=
  alistGet? (lookupAddr h a) k

/-- Nested read `d[k1][k2]` through an address: follows the reference
stored under k1. -/
def nestedGet (h : Heap) (a : ℕ) (k1 k2 : String) : Option HVal :=
  match topGet h a k1 with
  | some (.ref b) => topGet h b k2
  | _ => Option.none

/-- Nested in-place mutation `d[k1][k2] = v` through an address: writes
into the referenced dictionary, visible to every holder of that
reference. -/
def nestedSet (h : Heap) (a : ℕ) (k1 k2 : String) (v : HVal) : Heap :=
  match topGet h a k1 with
  | some (.ref b) => setTop h b k2 v
  | _ => h

/-! ## The threshold machine and the CPU/RAM source
(backend/signals/base.py ThresholdMixin, backend/signals/cpu.py) -/

/-- The per-source threshold state: named (low, high) bands and the
current zone string per metric. -/
structure ThresholdState where
  thresholds : List (String × (ℚ × ℚ)) := []
  states : List (String × String) := []
deriving Repr

/-- Embeds ThresholdMixin.set_threshold: store the band and reset the
zone to normal. -/
def setThreshold (ts : ThresholdState) (name : String) (low high : ℚ) :
    ThresholdState :=
  { thresholds := alistSet ts.thresholds name (low, high),
    states := alistSet ts.states name "normal" }

/-- Embeds ThresholdMixin.check_threshold: compute the new zone (low
wins at v ≤ low, then high at v ≥ high, else normal), record a
crossing and update the stored zone exactly when it changed, return
None otherwise.  An untracked name returns None and leaves the state
alone. -/
def checkThreshold (ts : ThresholdState) (name : String) (value : ℚ) :
    Option String × ThresholdState :=
  match alistGet? ts.thresholds name with
  | Option.none => (Option.none, ts)
  | some (low, high) =>
    let currentState := (alistGet? ts.states name).getD "normal"
    let newState :=
      if value ≤ low then "low"
      else if value ≥ high then "high"
      else "normal"
    if newState ≠ currentState then
      (some newState, { ts with states := alistSet ts.states name newState })
    else
      (Option.none, ts)

/-- The zone formula exactly as the specification words it: low if
v ≤ low, high if v ≥ high, else normal. -/
def claimZone (low high value : ℚ) : String :=
  if value ≤ low then "low"
  else if value ≥ high then "high"
  else "normal"

/-- The change-detection state of CPUSignalSource: last emitted values
per metric and the threshold machine.  The significant-change step is
the hard-coded 5 percentage points of the source constructor. -/
structure CpuSrcState where
  lastCpu : Option ℚ
  lastRam : Option ℚ
  thr : ThresholdState
deriving Repr

/-- The step constant `self._significant_change_threshold = 5.0`. -/
def significantChangeThreshold : ℚ := 5

/-- One entry of the events_data list a poll builds (the memory-size
detail fields of the ram entry are not modelled; no claim reads
them). -/
structure CpuChange where
  metric : String
  value : ℚ
  previous : Option ℚ
  thresholdState : Option String
deriving Repr

/-- The emitted event as far as the claims observe it: its event type
tag and the changes list carried in its data. -/
structure CpuEvent where
  eventType : String
  changes : List CpuChange
deriving Repr

/-- Whether the delta test of the poll fires for one metric: first
sample, or absolute delta from the last emitted value at least the
step. -/
def deltaTrig (last : Option ℚ) (v : ℚ) : Bool :=
  match last with
  | Option.none => true
  | some l => decide (|v - l| ≥ significantChangeThreshold)

/-- Embeds CPUSignalSource._poll on one pair of samples: each metric
contributes a change entry only when its delta test fires, and only
then is check_threshold consulted (its answer decorating the entry and
deciding the event type); when neither metric fires, no event is
emitted. -/
def cpuPoll (st : CpuSrcState) (cpuPercent ramPercent : ℚ) :
    Option CpuEvent × CpuSrcState :=
  let cpuFire := deltaTrig st.lastCpu cpuPercent
  let cpuStep :=
    if cpuFire then
      let r := checkThreshold st.thr "cpu" cpuPercent
      ([({ metric := "cpu", value := cpuPercent, previous := st.lastCpu,
            thresholdState := r.1 } : CpuChange)], r.2, some cpuPercent)
    else ([], st.thr, st.lastCpu)
  let ramFire := deltaTrig st.lastRam ramPercent
  let ramStep :=
    if ramFire then
      let r := checkThreshold cpuStep.2.1 "ram" ramPercent
      ([({ metric := "ram", value := ramPercent, previous := st.lastRam,
            thresholdState := r.1 } : CpuChange)], r.2, some ramPercent)
    else ([], cpuStep.2.1, st.lastRam)
  let changes := cpuStep.1 ++ ramStep.1
  let st2 : CpuSrcState :=
    { lastCpu := cpuStep.2.2, lastRam := ramStep.2.2, thr := ramStep.2.1 }
  if changes.isEmpty then (Option.none, st2)
  else
    let hasCrossing := changes.any (fun c => c.thresholdState.isSome)
    (some { eventType := if hasCrossing then "threshold_crossed" else "value_changed",
            changes := changes }, st2)

/-! ## The WebSocket hub (backend/websocket/handler.py) -/

/-- The hub state the claims speak about: registered client ids and,
per channel value, the subscribed client ids (a set, modelled as a
duplicate-free list). -/
structure WSState where
  activeConnections : List String
  subscriptions : List (PyVal × List String)
deriving Repr

/-- Embeds ConnectionManager.subscribe: ensure the channel entry and
add the client (set add: no duplicate). -/
def wsSubscribe (st : WSState) (clientId : String) (channel : PyVal) : WSState :=
  let cur := (pvaGet? st.subscriptions channel).getD []
  let cur2 := if clientId ∈ cur then cur else cur ++ [clientId]
  { st with subscriptions := pvaSet st.subscriptions channel cur2 }

/-- Embeds ConnectionManager.unsubscribe: discard the client from the
channel set when the channel exists (the empty entry is kept; only a
disconnect purges it). -/
def wsUnsubscribe (st : WSState) (clientId : String) (channel : PyVal) : WSState :=
  match pvaGet? st.subscriptions channel with
  | some cur =>
    { st with subscriptions :=
        pvaSet st.subscriptions channel (cur.filter (fun c => c ≠ clientId)) }
  | Option.none => st

/-- Embeds ConnectionManager.send_personal on a registered client with
a healthy transport: the frame is delivered.  (Transport failures and
the disconnect they trigger are not modelled; claim C6 is about which
frames the handler chooses to send.) -/
def sendPersonal (st : WSState) (clientId : String) (msg : PyVal) :
    List (String × PyVal) :=
  if clientId ∈ st.activeConnections then [(clientId, msg)] else []

/-- Embeds ConnectionManager.disconnect: remove the client from the
connection map and discard it from every channel, deleting channel
entries that become empty. -/
def wsDisconnect (st : WSState) (clientId : String) : WSState :=
  { activeConnections := st.activeConnections.filter (fun c => c ≠ clientId),
    subscriptions :=
      (st.subscriptions.map (fun p => (p.1, p.2.filter (fun c => c ≠ clientId)))).filter
        (fun p => ¬ p.2.isEmpty) }

/-- Embeds WebSocketHandler._process_message on an inbound dictionary:
dispatch on `data.get("type", "")` through the handler table set up by
_setup_handlers (subscribe, unsubscribe, ping, pipeline).  The lookup
`_message_handlers.get(msg_type)` itself raises TypeError when the
type value is unhashable (a list or dict); that exception is NOT
caught here and is modelled by the error case.  A handler exception
(an unhashable channel value) is answered with an error frame; an
unknown hashable message type is only logged - nothing is sent and
nothing changes.  Returns the new state and the frames sent to the
client. -/
def processMessage (st : WSState) (clientId : String)
    (data : List (String × PyVal)) (nowIso : String) :
    Except Unit (WSState × List (String × PyVal)) :=
  let msgType := pyGetD data "type" (.str "")
  if ¬ pyHashable msgType then .error ()
  else if pyEq msgType (.str "subscribe") then
    let channel := pyGetD data "channel" (.str "")
    if pyTruthy channel then
      if pyHashable channel then
        .ok (wsSubscribe st clientId channel,
          sendPersonal st clientId
            (.dict [("type", .str "subscribed"), ("channel", channel)]))
      else
        .ok (st, sendPersonal st clientId
          (.dict [("type", .str "error"), ("message", .str "unhashable type")]))
    else .ok (st, [])
  else if pyEq msgType (.str "unsubscribe") then
    let channel := pyGetD data "channel" (.str "")
    if pyTruthy channel then
      if pyHashable channel then
        .ok (wsUnsubscribe st clientId channel,
          sendPersonal st clientId
            (.dict [("type", .str "unsubscribed"), ("channel", channel)]))
      else
        .ok (st, sendPersonal st clientId
          (.dict [("type", .str "error"), ("message", .str "unhashable type")]))
    else .ok (st, [])
  else if pyEq msgType (.str "ping") then
    .ok (st, sendPersonal st clientId
      (.dict [("type", .str "pong"), ("timestamp", .str nowIso)]))
  else if pyEq msgType (.str "pipeline") then
    .ok (st, [])
  else
    .ok (st, [])

/-- Embeds one message round of WebSocketHandler.handle_connection: a
normally returning _process_message leaves the connection open; an
exception escaping it is caught by the handler loop, which disconnects
the client (purging its subscriptions) and ends the connection.  The
Bool component records whether the connection was closed. -/
def handleMessageStep (st : WSState) (clientId : String)
    (data : List (String × PyVal)) (nowIso : String) :
    WSState × List (String × PyVal) × Bool :=
  match processMessage st clientId data nowIso with
  | .ok (st2, frames) => (st2, frames, false)
  | .error _ => (wsDisconnect st clientId, [], true)

/-- The message types with a handler in
WebSocketHandler._setup_handlers. -/
def knownWsMsgType (v : PyVal) : Bool :=
  pyEq v (.str "subscribe") || pyEq v (.str "unsubscribe") ||
  pyEq v (.str "ping") || pyEq v (.str "pipeline")

/-! ## Concrete instances used by the code-level findings -/

/-- Node configurations of a diamond pipeline: S feeds A and B, which
both feed C. -/
def diamondNodes : List PyVal :=
  [.dict [("id", .str "S"), ("type", .str "source"),
      ("data", .dict [("source_type", .str "cpu")])],
    .dict [("id", .str "A"), ("type", .str "source")],
    .dict [("id", .str "B"), ("type", .str "source")],
    .dict [("id", .str "C"), ("type", .str "source")]]

/-- Edge configurations of the diamond. -/
def diamondEdges : List PyVal :=
  [.dict [("id", .str "e1"), ("source", .str "S"), ("target", .str "A")],
    .dict [("id", .str "e2"), ("source", .str "S"), ("target", .str "B")],
    .dict [("id", .str "e3"), ("source", .str "A"), ("target", .str "C")],
    .dict [("id", .str "e4"), ("source", .str "B"), ("target", .str "C")]]

/-- A sample event whose source type matches the diamond entry node. -/
def diamondEvent : SignalEventR :=
  { id := "ev1", sourceType := "cpu", sourceName := "cpu_ram_monitor",
    eventType := .valueChanged,
    timestamp := ⟨2025, 1, 1, 0, 0, 0, 0⟩,
    data := .dict [("cpu_percent", .num 50)], metadata := .dict [] }

/-- The traversal of the diamond pipeline for one event, through the
real build and BFS definitions. -/
def diamondTrace : Except Unit TraceResult :=
  match mkPipeline 1 "diamond" diamondNodes diamondEdges with
  | .ok p => processPipeline p "S" diamondEvent 0 ⟨0, 0⟩ 16 {}
  | .error _ => .error ()

/-! ## Shared lemmas -/

/-- Core of the lookup-after-update lemmas: dict assignment makes the
entry findable with the stored value. -/
theorem find_set_core {β α : Type} [BEq β] [LawfulBEq β]
    (m : List (β × α)) (k : β) (v : α) :
    (if (m.find? (fun p => p.1 == k)).isSome then
        m.map (fun p => if p.1 == k then (k, v) else p)
      else m ++ [(k, v)]).find? (fun p => p.1 == k) = some (k, v) := by
  by_cases h : (m.find? (fun p => p.1 == k)).isSome
  · rw [if_pos h]
    induction m with
    | nil => simp [List.find?] at h
    | cons q rest ih =>
      cases hq : (q.1 == k) with
      | true =>
        simp only [List.map_cons, if_pos hq]
        simp [List.find?_cons]
      | false =>
        simp only [List.map_cons, hq, Bool.false_eq_true, if_false]
        simp only [List.find?_cons, hq] at h ⊢
        exact ih h
  · rw [if_neg h]
    induction m with
    | nil => simp [List.find?]
    | cons q rest ih =>
      cases hq : (q.1 == k) with
      | true =>
        exfalso
        apply h
        simp [List.find?_cons, hq]
      | false =>
        rw [List.cons_append]
        simp only [List.find?_cons, hq] at h ⊢
        exact ih h

/-- Lookup after an update at the same key yields the new value. -/
theorem alistGet_alistSet {α : Type} (m : List (String × α)) (k : String) (v : α) :
    alistGet? (alistSet m k v) k = some v := by
  unfold alistGet? alistSet
  rw [find_set_core]
  rfl

/-- Lookup after an integer-keyed update at the same key yields the
new value. -/
theorem zGet_zSet {α : Type} (m : List (ℤ × α)) (k : ℤ) (v : α) :
    zGet? (zSet m k v) k = some v := by
  unfold zGet? zSet
  rw [find_set_core]
  rfl

/-- A top-level store on one address leaves the find of any other
address untouched. -/
theorem find_map_setTop (l : List (ℕ × HDict)) (c b : ℕ) (k : String)
    (v : HVal) (hne : b ≠ c) :
    (l.map (fun p => if p.1 == c then (p.1, hdictSet p.2 k v) else p)).find?
        (fun p => p.1 == b) =
      l.find? (fun p => p.1 == b) := by
  induction l with
  | nil => rfl
  | cons p rest ih =>
    by_cases hc : p.1 = c
    · have h1 : ((if (p.1 == c) = true then (p.1, hdictSet p.2 k v) else p).1 == b) = false := by
        simp [hc, Ne.symm hne]
      have h2 : (p.1 == b) = false := by simp [hc, Ne.symm hne]
      simp only [List.map_cons, List.find?_cons, h1, h2]
      exact ih
    · have h1 : ((if (p.1 == c) = true then (p.1, hdictSet p.2 k v) else p).1 == b) = (p.1 == b) := by
        simp [hc]
      simp only [List.map_cons, List.find?_cons, h1]
      cases hbb : (p.1 == b) with
      | true => simp [hc]
      | false => exact ih

/-- The dictionary at any other address is unchanged by setTop. -/
theorem lookupAddr_setTop_ne (hh : Heap) (c b : ℕ) (k : String) (v : HVal)
    (hne : b ≠ c) :
    lookupAddr (setTop hh c k v) b = lookupAddr hh b := by
  unfold lookupAddr setTop
  rw [find_map_setTop hh.store c b k v hne]

/-- Top-level reads through any other address are unchanged by
setTop. -/
theorem topGet_setTop_ne (hh : Heap) (c b : ℕ) (k : String) (v : HVal)
    (k2 : String) (hne : b ≠ c) :
    topGet (setTop hh c k v) b k2 = topGet hh b k2 := by
  unfold topGet
  rw [lookupAddr_setTop_ne hh c b k v hne]

/-- Unfolding of one rate-limited round. -/
theorem rlRun_cons (m w : ℚ) (st : List ℚ) (t : ℚ) (ts : List ℚ) :
    rlRun m w st (t :: ts) =
      if (((st.filter (fun u => decide (t - w < u))).length : ℚ) < m) then
        t :: rlRun m w ((st.filter (fun u => decide (t - w < u))) ++ [t]) ts
      else rlRun m w (st.filter (fun u => decide (t - w < u))) ts := by
  by_cases hadm : (((st.filter (fun u => decide (t - w < u))).length : ℚ) < m)
  · rw [if_pos hadm]
    simp [rlRun, rlStep, rlShould, rlRecord, hadm]
  · rw [if_neg hadm]
    simp [rlRun, rlStep, rlShould, rlRecord, hadm]

/-- Every admitted time was one of the submitted times. -/
theorem rlRun_subset (m w : ℚ) :
    ∀ (ts st : List ℚ) (x : ℚ), x ∈ rlRun m w st ts → x ∈ ts := by
  intro ts
  induction ts with
  | nil =>
    intro st x hx
    simp [rlRun] at hx
  | cons t rest ih =>
    intro st x hx
    rw [rlRun_cons] at hx
    by_cases hadm : (((st.filter (fun u => decide (t - w < u))).length : ℚ) < m)
    · rw [if_pos hadm] at hx
      rcases List.mem_cons.mp hx with h1 | h1
      · exact h1 ▸ List.mem_cons_self t rest
      · exact List.mem_cons_of_mem t (ih _ x h1)
    · rw [if_neg hadm] at hx
      exact List.mem_cons_of_mem t (ih _ x hx)

/-- When the window end is not before time t, pruning at t keeps every
stored time inside the window. -/
theorem filter_window_prune (st : List ℚ) (t w a : ℚ) (htw : t ≤ a + w) :
    st.filter (fun u => decide (a < u ∧ u ≤ a + w)) =
      (st.filter (fun u => decide (t - w < u))).filter
        (fun u => decide (a < u ∧ u ≤ a + w)) := by
  rw [List.filter_filter]
  apply List.filter_congr
  intro u _
  by_cases hwin : (a < u ∧ u ≤ a + w)
  · have h1 : t - w < u := by
      rcases hwin with ⟨h1, _⟩
      linarith
    simp [hwin, h1]
  · simp [hwin]

/-- When every stored time precedes t and t is not after the window
start, no stored time lies in the window. -/
theorem filter_window_nil (st : List ℚ) (t a w : ℚ) (hta : t ≤ a)
    (hstt : ∀ u ∈ st, u < t) :
    st.filter (fun u => decide (a < u ∧ u ≤ a + w)) = [] := by
  rw [List.filter_eq_nil_iff]
  intro u hu
  simp only [decide_eq_true_eq, not_and]
  intro h1 _
  have := hstt u hu
  linarith

/-- Generalized rolling-window bound for the rate limiter: starting
from a duplicate-free state of recorded times that all precede the
(strictly increasing) submitted times, the admitted times in any
window of length w, together with the stored times in that window,
never exceed the maximum (or no admitted time falls in the window at
all). -/
theorem rl_window_gen (m : ℕ) (w : ℚ) :
    ∀ (ts st : List ℚ), List.Sorted (· < ·) ts → st.Nodup →
      (∀ u ∈ st, ∀ t ∈ ts, u < t) → ∀ a : ℚ,
      ((rlRun (m : ℚ) w st ts).filter (fun x => decide (a < x ∧ x ≤ a + w))).length +
        (st.filter (fun u => decide (a < u ∧ u ≤ a + w))).length ≤ m ∨
      ((rlRun (m : ℚ) w st ts).filter (fun x => decide (a < x ∧ x ≤ a + w))).length = 0 := by
  intro ts
  induction ts with
  | nil =>
    intro st _ _ _ a
    right
    rfl
  | cons t rest ih =>
    intro st hsort hnd hlt a
    have hsrest : List.Sorted (fun x y => x < y) rest := (List.sorted_cons.mp hsort).2
    have htrest : ∀ t2 ∈ rest, t < t2 := (List.sorted_cons.mp hsort).1
    have hstt : ∀ u ∈ st, u < t := fun u hu => hlt u hu t (List.mem_cons_self t rest)
    have hpr_sub : ∀ u ∈ st.filter (fun u => decide (t - w < u)), u ∈ st :=
      fun u hu => List.mem_of_mem_filter hu
    have hnd_pr : (st.filter (fun u => decide (t - w < u))).Nodup := hnd.filter _
    have hlt_pr : ∀ u ∈ st.filter (fun u => decide (t - w < u)), ∀ t2 ∈ rest, u < t2 :=
      fun u hu t2 ht2 => hlt u (hpr_sub u hu) t2 (List.mem_cons_of_mem t ht2)
    rw [rlRun_cons]
    by_cases hadm : (((st.filter (fun u => decide (t - w < u))).length : ℚ) < (m : ℚ))
    · rw [if_pos hadm]
      have ht_notin : t ∉ st.filter (fun u => decide (t - w < u)) := fun hmem =>
        absurd (hstt t (hpr_sub t hmem)) (lt_irrefl t)
      have hnd2 : ((st.filter (fun u => decide (t - w < u))) ++ [t]).Nodup := by
        rw [List.nodup_append]
        refine ⟨hnd_pr, List.nodup_singleton t, ?_⟩
        intro x hx hxt
        rw [List.mem_singleton.mp hxt] at hx
        exact ht_notin hx
      have hlt2 : ∀ u ∈ (st.filter (fun u => decide (t - w < u))) ++ [t],
          ∀ t2 ∈ rest, u < t2 := by
        intro u hu t2 ht2
        rcases List.mem_append.mp hu with h1 | h1
        · exact hlt_pr u h1 t2 ht2
        · rw [List.mem_singleton.mp h1]
          exact htrest t2 ht2
      have IH := ih ((st.filter (fun u => decide (t - w < u))) ++ [t]) hsrest hnd2 hlt2 a
      have hmNat : (st.filter (fun u => decide (t - w < u))).length < m := by
        exact_mod_cast hadm
      by_cases hw : (a < t ∧ t ≤ a + w)
      · have hwt : (decide (a < t ∧ t ≤ a + w)) = true := decide_eq_true hw
        have hsteq := filter_window_prune st t w a hw.2
        have happ : (((st.filter (fun u => decide (t - w < u))) ++ [t]).filter
            (fun u => decide (a < u ∧ u ≤ a + w))) =
            ((st.filter (fun u => decide (t - w < u))).filter
              (fun u => decide (a < u ∧ u ≤ a + w))) ++ [t] := by
          rw [List.filter_append]
          simp [hw]
        have hprw_le : ((st.filter (fun u => decide (t - w < u))).filter
            (fun u => decide (a < u ∧ u ≤ a + w))).length ≤
            (st.filter (fun u => decide (t - w < u))).length :=
          List.length_filter_le _ _
        rcases IH with hIH | hIH
        · left
          rw [happ, List.length_append] at hIH
          simp only [List.length_singleton] at hIH
          simp only [List.filter_cons, hwt, if_true, List.length_cons]
          rw [hsteq]
          omega
        · left
          simp only [List.filter_cons, hwt, if_true, List.length_cons]
          rw [hIH, hsteq]
          omega
      · have hwt : (decide (a < t ∧ t ≤ a + w)) = false := decide_eq_false hw
        by_cases hta : t ≤ a
        · have hstw := filter_window_nil st t a w hta hstt
          rcases IH with hIH | hIH
          · left
            simp only [List.filter_cons, hwt, Bool.false_eq_true, if_false]
            rw [hstw]
            simp only [List.length_nil]
            omega
          · right
            simp only [List.filter_cons, hwt, Bool.false_eq_true, if_false]
            exact hIH
        · have hat : a < t := lt_of_not_le hta
          have htaw : a + w < t := by
            rcases not_and_or.mp hw with h1 | h1
            · exact absurd hat h1
            · exact lt_of_not_le h1
          right
          simp only [List.filter_cons, hwt, Bool.false_eq_true, if_false]
          have : (rlRun (m : ℚ) w ((st.filter (fun u => decide (t - w < u))) ++ [t]) rest).filter
              (fun x => decide (a < x ∧ x ≤ a + w)) = [] := by
            rw [List.filter_eq_nil_iff]
            intro x hx
            have hxrest : x ∈ rest := rlRun_subset (m : ℚ) w rest _ x hx
            have htx : t < x := htrest x hxrest
            simp only [decide_eq_true_eq, not_and]
            intro _ hx2
            linarith
          rw [this]
          rfl
    · rw [if_neg hadm]
      have IH := ih (st.filter (fun u => decide (t - w < u))) hsrest hnd_pr hlt_pr a
      by_cases hta : t ≤ a
      · have hstw := filter_window_nil st t a w hta hstt
        rcases IH with hIH | hIH
        · left
          rw [hstw]
          simp only [List.length_nil]
          omega
        · right
          exact hIH
      · by_cases htw : t ≤ a + w
        · have hsteq := filter_window_prune st t w a htw
          rcases IH with hIH | hIH
          · left
            rw [hsteq]
            exact hIH
          · right
            exact hIH
        · right
          have : (rlRun (m : ℚ) w (st.filter (fun u => decide (t - w < u))) rest).filter
              (fun x => decide (a < x ∧ x ≤ a + w)) = [] := by
            rw [List.filter_eq_nil_iff]
            intro x hx
            have hxrest : x ∈ rest := rlRun_subset (m : ℚ) w rest _ x hx
            have htx : t < x := htrest x hxrest
            simp only [decide_eq_true_eq, not_and]
            intro _ hx2
            have := lt_of_not_le htw
            linarith
          rw [this]
          rfl

/-- The fixed-width digit rendering has the stated width. -/
theorem digitsBE_length (k n : ℕ) : (digitsBE k n).length = k := by
  induction k generalizing n with
  | zero => rfl
  | succ k ih => simp [digitsBE, ih]

/-- Every rendered digit is below ten. -/
theorem digitsBE_lt_ten (k n : ℕ) : ∀ d ∈ digitsBE k n, d < 10 := by
  induction k generalizing n with
  | zero =>
    intro d hd
    simp [digitsBE] at hd
  | succ k ih =>
    intro d hd
    simp only [digitsBE, List.mem_append, List.mem_singleton] at hd
    rcases hd with h | h
    · exact ih _ d h
    · rw [h]
      exact Nat.mod_lt _ (by omega)

/-- Appending a digit multiplies the value by ten and adds it. -/
theorem fromDigitsBE_append (xs : List ℕ) (d : ℕ) :
    fromDigitsBE (xs ++ [d]) = 10 * fromDigitsBE xs + d := by
  unfold fromDigitsBE
  rw [List.foldl_append]
  rfl

/-- The digit rendering of a value below 10 to the width decodes to
the value. -/
theorem fromDigitsBE_digitsBE (k n : ℕ) (h : n < 10 ^ k) :
    fromDigitsBE (digitsBE k n) = n := by
  induction k generalizing n with
  | zero =>
    have h0 : n = 0 := by
      have : n < 1 := by simpa using h
      omega
    simp [h0, digitsBE, fromDigitsBE]
  | succ k ih =>
    have hdiv : n / 10 < 10 ^ k := by
      rw [Nat.div_lt_iff_lt_mul (by norm_num)]
      calc n < 10 ^ (k + 1) := h
        _ = 10 ^ k * 10 := by ring
    rw [show digitsBE (k + 1) n = digitsBE k (n / 10) ++ [n % 10] from rfl,
      fromDigitsBE_append, ih _ hdiv]
    omega

/-- Width of the character-code rendering. -/
theorem encDigits_length (k n : ℕ) : (encDigits k n).length = k := by
  simp [encDigits, digitsBE_length]

/-- Decoding inverts the character-code rendering. -/
theorem decDigits_encDigits (k n : ℕ) (h : n < 10 ^ k) :
    decDigits? (encDigits k n) = some n := by
  unfold decDigits? encDigits
  have hall : ((digitsBE k n).map (fun d => d + 48)).all isDigitCode = true := by
    rw [List.all_eq_true]
    intro c hc
    rcases List.mem_map.mp hc with ⟨d, hd, hcd⟩
    have hlt := digitsBE_lt_ten k n d hd
    rw [← hcd]
    simp only [isDigitCode, decide_eq_true_eq]
    omega
  rw [if_pos hall]
  congr 1
  rw [List.map_map]
  have hid : ((fun c => c - 48) ∘ fun d => d + 48) = id := by
    funext d
    simp
  rw [hid, List.map_id]
  exact fromDigitsBE_digitsBE k n h

/-- Chopping a fixed-width field off an encoded prefix returns the
value and the remainder. -/
theorem chopDigits_encDigits (k n : ℕ) (rest : List ℕ) (h : n < 10 ^ k) :
    chopDigits? k (encDigits k n ++ rest) = some (n, rest) := by
  unfold chopDigits?
  rw [List.take_left' (encDigits_length k n), List.drop_left' (encDigits_length k n),
    decDigits_encDigits k n h]
  rfl

/-- Chopping the expected separator succeeds. -/
theorem chopSep_cons (c : ℕ) (rest : List ℕ) :
    chopSep? c (c :: rest) = some rest := by
  simp [chopSep?]

/-- The fractional tail parse inverts its rendering. -/
theorem parseFrac_encDigits (us : ℕ) (h : us < 10 ^ 6) :
    parseFrac? (46 :: encDigits 6 us) = some us := by
  simp only [parseFrac?, encDigits_length]
  simp [decDigits_encDigits 6 us h]

/-- Parsing inverts the isoformat rendering on valid datetimes. -/
theorem parseIso_isoCodes (t : PyDatetime) (h : t.Valid) :
    parseIso? (isoCodes t) = some t := by
  obtain ⟨y, mo, d, hh, mi, s, us⟩ := t
  simp only [PyDatetime.Valid] at h
  obtain ⟨g1, g2, g3, g4, g5, g6, g7, g8, g9, g10⟩ := h
  have e4 : (10 : ℕ) ^ 4 = 10000 := by norm_num
  have e2 : (10 : ℕ) ^ 2 = 100 := by norm_num
  have e6 : (10 : ℕ) ^ 6 = 1000000 := by norm_num
  have hy : y < 10 ^ 4 := by omega
  have hmo : mo < 10 ^ 2 := by omega
  have hd : d < 10 ^ 2 := by omega
  have hhh : hh < 10 ^ 2 := by omega
  have hmi : mi < 10 ^ 2 := by omega
  have hs : s < 10 ^ 2 := by omega
  have hus : us < 10 ^ 6 := by omega
  by_cases h0 : us = 0
  · subst h0
    simp only [parseIso?, isoCodes, if_pos rfl, List.append_nil,
      chopDigits_encDigits 4 y _ hy, chopDigits_encDigits 2 mo _ hmo,
      chopDigits_encDigits 2 d _ hd, chopDigits_encDigits 2 hh _ hhh,
      chopDigits_encDigits 2 mi _ hmi, chopDigits_encDigits 2 s _ hs,
      chopSep_cons, Option.bind_eq_bind, Option.some_bind]
    rfl
  · simp only [parseIso?, isoCodes, if_neg h0,
      chopDigits_encDigits 4 y _ hy, chopDigits_encDigits 2 mo _ hmo,
      chopDigits_encDigits 2 d _ hd, chopDigits_encDigits 2 hh _ hhh,
      chopDigits_encDigits 2 mi _ hmi, chopDigits_encDigits 2 s _ hs,
      chopSep_cons, Option.bind_eq_bind, Option.some_bind,
      parseFrac_encDigits us hus]
    rfl

/-- The EventType constructor inverts the value rendering. -/
theorem eventTypeOf_value (et : EventTypeE) : eventTypeOf? et.value = some et := by
  cases et <;> rfl

/-! ## Claim theorems -/

/-- Claim C1: the claim states that the executor maintains a per-event
visited set so that no node is processed twice during one traversal.
The BFS loop of PipelineExecutor._process_pipeline keeps no visited
set: on the diamond graph S to A and B, both to C, the traversal
drains its queue and visits C twice (and on a cyclic graph the loop
never drains).  This theorem evaluates the embedded traversal at the
diamond. -/
theorem c1_diamond_double_visit :
    diamondTrace.map (fun r => (r.visits, r.finished)) =
      .ok (["S", "A", "B", "C", "C"], true) ∧
    diamondTrace.map (fun r => r.visits.count "C") = .ok 2 :=
  ⟨rfl, rfl⟩

/-- Claim C3: the claim states that a debounce-governed action node
receiving a quiet burst performs exactly one invocation, after the
delay, with the last payload.  DebouncePolicy.should_execute schedules
its timer only when the context carries `_execute_callback`, and the
context the executor builds never does: on a two-event burst with
gaps below the delay the machine performs no invocation at all. -/
theorem c3_debounce_executor_burst :
    (executorContext (.dict []) 1 "n1" (.dict [])).hasExecuteCallback = false ∧
    debounceInvocations 2
      [(0, executorContext (.dict [("seq", .num 1)]) 1 "n1" (.dict [])),
        (1, executorContext (.dict [("seq", .num 2)]) 1 "n1" (.dict []))] = [] :=
  ⟨rfl, rfl⟩

/-- Claim C5, counterexample: the claim states a poll emits an event
whenever a threshold boundary is crossed, even with a delta below the
step.  With last emitted cpu 78 (zone normal, band 20 to 80), a sample
of 81 crosses the high boundary in the claimed zone formula, yet the
poll emits nothing because check_threshold is only consulted once the
5-point delta test has fired. -/
theorem c5_crossing_small_delta_no_event :
    (cpuPoll ⟨some 78, some 50,
        setThreshold (setThreshold {} "cpu" 20 80) "ram" 0 85⟩ 81 50).1.isNone
      = true ∧
    claimZone 20 80 81 = "high" ∧
    (alistGet? (setThreshold (setThreshold {} "cpu" 20 80) "ram" 0 85).states
        "cpu").getD "normal" = "normal" := by
  have hc : deltaTrig (some 78) 81 = false := by
    simp only [deltaTrig, significantChangeThreshold, decide_eq_false_iff_not]
    norm_num
  have hr : deltaTrig (some 50) 50 = false := by
    simp only [deltaTrig, significantChangeThreshold, decide_eq_false_iff_not]
    norm_num
  refine ⟨?_, by norm_num [claimZone], rfl⟩
  simp [cpuPoll, hc, hr]

/-- Claim C5, amended: a poll of the cpu/ram source emits an event if
and only if the delta test fires for at least one metric (first sample,
or absolute delta from the last emitted value at least the 5-point
step); threshold crossings only decorate such an event and never cause
one by themselves. -/
theorem c5_emit_iff_delta (st : CpuSrcState) (c r : ℚ) :
    (cpuPoll st c r).1.isSome = (deltaTrig st.lastCpu c || deltaTrig st.lastRam r) := by
  unfold cpuPoll
  cases h1 : deltaTrig st.lastCpu c <;> cases h2 : deltaTrig st.lastRam r <;>
    simp [h1, h2]

/-- Claim C6, counterexample: the claim states an unknown inbound
message type is answered with an error frame.  The handler only logs
unknown types: on a registered, subscribed client sending type bogus,
no frame at all is sent (the state is also untouched). -/
theorem c6_unknown_type_no_error_frame :
    processMessage ⟨["c1"], [(.str "events", ["c1"])]⟩ "c1"
      [("type", .str "bogus")] "2025-01-01T00:00:00" =
    .ok (⟨["c1"], [(.str "events", ["c1"])]⟩, []) := rfl

/-- Claim C6, amended: for every inbound message whose type is a
HASHABLE value not among subscribe, unsubscribe, ping, pipeline, the
hub sends no frame (in particular no error frame), does not close the
connection, and leaves the registration and every channel subscription
unchanged; for a message whose type value is unhashable (a list or an
object), the handler-table lookup itself raises, and the connection
loop disconnects the client, purging its subscriptions - again without
an error frame. -/
theorem c6_unknown_type_ignored (st : WSState) (cid : String)
    (data : List (String × PyVal)) (nowIso : String) :
    (knownWsMsgType (pyGetD data "type" (.str "")) = false →
      pyHashable (pyGetD data "type" (.str "")) = true →
      processMessage st cid data nowIso = .ok (st, [])) ∧
    (pyHashable (pyGetD data "type" (.str "")) = false →
      handleMessageStep st cid data nowIso = (wsDisconnect st cid, [], true)) := by
  constructor
  · intro h hh
    unfold knownWsMsgType at h
    simp only [Bool.or_eq_false_iff] at h
    obtain ⟨⟨⟨h1, h2⟩, h3⟩, h4⟩ := h
    unfold processMessage
    simp [h1, h2, h3, h4, hh]
  · intro hh
    unfold handleMessageStep processMessage
    simp [hh]

/-- Witness for the amended C6 theorem: a concrete unknown string type
is ignored, and a concrete list-valued type disconnects the client. -/
theorem c6_unknown_type_ignored_witness :
    processMessage ⟨[], []⟩ "c" [("type", .str "nope")] "" = .ok (⟨[], []⟩, []) ∧
    handleMessageStep ⟨["c"], [(.str "events", ["c"])]⟩ "c"
        [("type", .list [])] "" =
      (wsDisconnect ⟨["c"], [(.str "events", ["c"])]⟩ "c", [], true) :=
  ⟨(c6_unknown_type_ignored ⟨[], []⟩ "c" [("type", .str "nope")] "").1
      (by rfl) (by rfl),
    (c6_unknown_type_ignored ⟨["c"], [(.str "events", ["c"])]⟩ "c"
      [("type", .list [])] "").2 (by rfl)⟩

/-- Claim C2, counterexample: the claim states that a load containing
a filter with an unknown type tag fails and leaves the executor
unchanged.  Loading a one-node pipeline whose filter type is bogus
raises nothing, and the pipeline is registered in the table. -/
theorem c2_unknown_filter_load_registers :
    (loadPipeline {} 7 "p"
        [.dict [("id", .str "n1"), ("type", .str "filter"),
          ("data", .dict [("filter", .dict [("type", .str "bogus")])])]]
        []).2 = Option.none ∧
    (zGet? (loadPipeline {} 7 "p"
        [.dict [("id", .str "n1"), ("type", .str "filter"),
          ("data", .dict [("filter", .dict [("type", .str "bogus")])])]]
        []).1.pipelines 7).isSome = true :=
  ⟨rfl, rfl⟩

/-- Claim C2, amended: unknown filter, transformer and policy type
tags do raise inside the factories, but
PipelineNode._initialize_component catches the exception and only logs
it: the node is kept with no materialized component (for an action
node, the action survives and only the policy is dropped).  Whenever
the graph itself parses, the pipeline is registered whole in the
executor table BEFORE the subscription loop runs, so the executor is
never left unchanged: either the load returns normally with the index
updated, or the subscription loop raises on a malformed source node
(non-dict data blob, unhashable source_type) and the exception
propagates with the pipeline already in the table. -/
theorem c2_unknown_types_swallowed :
    (∀ data msg,
        createFilter recLimit (pyValGetD data "filter" (.dict [])) = .error msg →
        initComponent (.str "filter") data = ({} : NodeComps)) ∧
    (∀ data msg,
        createTransformer (pyValGetD data "transformer" (.dict [])) = .error msg →
        initComponent (.str "transformer") data = ({} : NodeComps)) ∧
    (∀ data t msg,
        pyValGetD data "action_type" (.str "notification") = .str t →
        t ∈ actionRegistry →
        createPolicy (pyValGetD data "policy" (.dict [("type", .str "none")])) = .error msg →
        initComponent (.str "action") data = ({ action? := some t } : NodeComps)) ∧
    (∀ st pid name nodes edges p,
        mkPipeline pid name nodes edges = .ok p →
        (loadPipeline st pid name nodes edges).1.pipelines = zSet st.pipelines pid p ∧
        zGet? ((loadPipeline st pid name nodes edges).1.pipelines) pid = some p) := by
  refine ⟨?_, ?_, ?_, ?_⟩
  · intro data msg h
    cases data <;> try rfl
    case dict dd =>
      have h2 : createFilter recLimit (pyGetD dd "filter" (.dict [])) = .error msg := h
      simp [initComponent, pyEq, h2]
  · intro data msg h
    cases data <;> try rfl
    case dict dd =>
      have h2 : createTransformer (pyGetD dd "transformer" (.dict [])) = .error msg := h
      simp [initComponent, pyEq, h2]
  · intro data t msg hat hreg hpol
    cases data
    case dict dd =>
      have hat2 : pyGetD dd "action_type" (.str "notification") = .str t := hat
      have hpol2 : createPolicy (pyGetD dd "policy" (.dict [("type", .str "none")])) = .error msg := hpol
      simp [initComponent, pyEq, hat2, hpol2, hreg]
    all_goals
      exfalso
      have hnp : createPolicy (.dict [("type", PyVal.str "none")]) = .ok .noPolicy := rfl
      simp only [pyValGetD] at hpol
      rw [hnp] at hpol
      exact Except.noConfusion hpol
  · intro st pid name nodes edges p h
    have e1 : loadPipeline st pid name nodes edges =
        (⟨zSet st.pipelines pid p,
          (registerSources st.subscriptions pid (getSourceNodes p)).1⟩,
          (registerSources st.subscriptions pid (getSourceNodes p)).2) := by
      unfold loadPipeline
      rw [h]
    rw [e1]
    exact ⟨rfl, zGet_zSet _ _ _⟩

/-- Witness for the amended C2 theorem: the bogus filter type swallows
into an unmaterialized component, and a concrete load puts its
pipeline in the table. -/
theorem c2_unknown_types_swallowed_witness :
    initComponent (.str "filter")
      (.dict [("filter", .dict [("type", .str "bogus")])]) = ({} : NodeComps) ∧
    (loadPipeline {} 5 "w"
        [.dict [("id", .str "n"), ("type", .str "source")]] []).1.pipelines =
      zSet ({} : ExecState).pipelines 5 (⟨5, "w", true,
        [("n", ⟨"n", .str "source", .dict [], {}⟩)], [], []⟩ : Pipeline) ∧
    zGet? ((loadPipeline {} 5 "w"
        [.dict [("id", .str "n"), ("type", .str "source")]] []).1.pipelines) 5 =
      some (⟨5, "w", true,
        [("n", ⟨"n", .str "source", .dict [], {}⟩)], [], []⟩ : Pipeline) :=
  ⟨c2_unknown_types_swallowed.1 _ "Unknown filter type" rfl,
    c2_unknown_types_swallowed.2.2.2 {} 5 "w" _ [] _ rfl⟩

/-- Claim C4, counterexample: the claim states each branch receives an
independent copy so that even a mutation of a nested mapping on one
branch is never observable by a sibling.  The copy at the fan-out is
the shallow dict.copy: two copies of a payload whose data key
references dictionary 1 share that dictionary, and a nested write
through the first copy is read back through the second. -/
theorem c4_shallow_copy_shares_nested :
    (let h0 : Heap := ⟨2, [(0, [("data", HVal.ref 1)]), (1, [])]⟩
     let copy1 := shallowCopy h0 0
     let copy2 := shallowCopy copy1.1 0
     let mutated := nestedSet copy2.1 copy1.2 "data" "x" (.prim (.num 1))
     nestedGet mutated copy2.2 "data" "x" = some (.prim (.num 1)) ∧
       nestedGet copy2.1 copy2.2 "data" "x" = Option.none) :=
  ⟨rfl, rfl⟩

/-- Claim C4, amended: each branch receives a shallow copy of the
payload, so any top-level store performed through one copy (the
repository transformers only ever bind derived keys at the top level of
a fresh copy) is invisible through a sibling copy, both for top-level
reads and for reads through the shared nested mappings; an in-place
mutation of a nested mapping, by contrast, would be shared (see the
counterexample). -/
theorem c4_top_level_isolated (h : Heap) (hwf : h.wf) (a : ℕ)
    (ha : a < h.next) (k k2 k3 : String) (v : HVal) :
    topGet (setTop (shallowCopy (shallowCopy h a).1 a).1 (shallowCopy h a).2 k v)
        (shallowCopy (shallowCopy h a).1 a).2 k2 =
      topGet (shallowCopy (shallowCopy h a).1 a).1
        (shallowCopy (shallowCopy h a).1 a).2 k2 ∧
    nestedGet (setTop (shallowCopy (shallowCopy h a).1 a).1 (shallowCopy h a).2 k v)
        (shallowCopy (shallowCopy h a).1 a).2 k2 k3 =
      nestedGet (shallowCopy (shallowCopy h a).1 a).1
        (shallowCopy (shallowCopy h a).1 a).2 k2 k3 := by
  have hna : (h.next == a) = false := by
    simp
    omega
  have e2 : lookupAddr ⟨h.next + 1, (h.next, lookupAddr h a) :: h.store⟩ a =
      lookupAddr h a := by
    unfold lookupAddr
    simp only [List.find?_cons, hna]
  have ec1 : (shallowCopy h a).2 = h.next := rfl
  have eh1 : (shallowCopy h a).1 =
      ⟨h.next + 1, (h.next, lookupAddr h a) :: h.store⟩ := rfl
  have eh2 : (shallowCopy (shallowCopy h a).1 a).1 =
      ⟨h.next + 2, (h.next + 1, lookupAddr h a) ::
        (h.next, lookupAddr h a) :: h.store⟩ := by
    rw [eh1]
    unfold shallowCopy
    rw [e2]
  have ec2 : (shallowCopy (shallowCopy h a).1 a).2 = h.next + 1 := rfl
  have hne21 : h.next + 1 ≠ h.next := by omega
  have top1 : ∀ kx,
      topGet (setTop (shallowCopy (shallowCopy h a).1 a).1 (shallowCopy h a).2 k v)
          (shallowCopy (shallowCopy h a).1 a).2 kx =
        topGet (shallowCopy (shallowCopy h a).1 a).1
          (shallowCopy (shallowCopy h a).1 a).2 kx := by
    intro kx
    rw [ec1, ec2]
    exact topGet_setTop_ne _ _ _ _ _ _ hne21
  refine ⟨top1 k2, ?_⟩
  unfold nestedGet
  rw [top1 k2]
  cases ho : topGet (shallowCopy (shallowCopy h a).1 a).1
      (shallowCopy (shallowCopy h a).1 a).2 k2 with
  | none => rfl
  | some w2 =>
    cases w2 with
    | prim _ => rfl
    | ref b =>
      have hD : lookupAddr (shallowCopy (shallowCopy h a).1 a).1
          (shallowCopy (shallowCopy h a).1 a).2 = lookupAddr h a := by
        rw [eh2, ec2]
        unfold lookupAddr
        simp [List.find?_cons]
      have hmem : alistGet? (lookupAddr h a) k2 = some (.ref b) := by
        rw [← hD]
        exact ho
      have hb : b < h.next := by
        unfold alistGet? at hmem
        rcases Option.map_eq_some.mp hmem with ⟨p, hfind, hp2⟩
        have hpD : p ∈ lookupAddr h a := List.mem_of_find?_eq_some hfind
        unfold lookupAddr at hpD
        cases hda : h.store.find? (fun q => q.1 == a) with
        | none =>
          rw [hda] at hpD
          simp at hpD
        | some pa =>
          rw [hda] at hpD
          simp at hpD
          have hpamem : pa ∈ h.store := List.mem_of_find?_eq_some hda
          have := hwf.2 pa hpamem p hpD
          rw [hp2] at this
          simpa [HVal.refBelow] using this
      have hbne : b ≠ h.next := by omega
      rw [ec1]
      exact topGet_setTop_ne _ _ _ _ _ _ hbne

/-- Witness for the amended C4 theorem on a concrete two-dictionary
heap. -/
theorem c4_top_level_isolated_witness :
    topGet (setTop (shallowCopy (shallowCopy
          (⟨2, [(0, [("data", HVal.ref 1)]), (1, [])]⟩ : Heap) 0).1 0).1
        (shallowCopy (⟨2, [(0, [("data", HVal.ref 1)]), (1, [])]⟩ : Heap) 0).2
        "out" (.prim (.num 7)))
        (shallowCopy (shallowCopy
          (⟨2, [(0, [("data", HVal.ref 1)]), (1, [])]⟩ : Heap) 0).1 0).2 "data" =
      topGet (shallowCopy (shallowCopy
          (⟨2, [(0, [("data", HVal.ref 1)]), (1, [])]⟩ : Heap) 0).1 0).1
        (shallowCopy (shallowCopy
          (⟨2, [(0, [("data", HVal.ref 1)]), (1, [])]⟩ : Heap) 0).1 0).2 "data" ∧
    nestedGet (setTop (shallowCopy (shallowCopy
          (⟨2, [(0, [("data", HVal.ref 1)]), (1, [])]⟩ : Heap) 0).1 0).1
        (shallowCopy (⟨2, [(0, [("data", HVal.ref 1)]), (1, [])]⟩ : Heap) 0).2
        "out" (.prim (.num 7)))
        (shallowCopy (shallowCopy
          (⟨2, [(0, [("data", HVal.ref 1)]), (1, [])]⟩ : Heap) 0).1 0).2 "data" "x" =
      nestedGet (shallowCopy (shallowCopy
          (⟨2, [(0, [("data", HVal.ref 1)]), (1, [])]⟩ : Heap) 0).1 0).1
        (shallowCopy (shallowCopy
          (⟨2, [(0, [("data", HVal.ref 1)]), (1, [])]⟩ : Heap) 0).1 0).2 "data" "x" :=
  c4_top_level_isolated ⟨2, [(0, [("data", HVal.ref 1)]), (1, [])]⟩
    (by decide) 0 (by decide) "out" "data" "x" (.prim (.num 7))

/-- Claim C8: each sample against a tracked band yields the zone low
if v is at most low, high if v is at least high, else normal; a
crossing is recorded exactly when that zone differs from the stored
one, and the stored zone becomes the new zone either way (the bands
themselves never change). -/
theorem c8_threshold_machine (ts : ThresholdState) (name : String)
    (low high v : ℚ) (h : alistGet? ts.thresholds name = some (low, high)) :
    (checkThreshold ts name v).1 =
      (if claimZone low high v = (alistGet? ts.states name).getD "normal"
        then Option.none else some (claimZone low high v)) ∧
    (alistGet? (checkThreshold ts name v).2.states name).getD "normal" =
      claimZone low high v ∧
    (checkThreshold ts name v).2.thresholds = ts.thresholds := by
  have e1 : checkThreshold ts name v =
      (if (if v ≤ low then "low" else if v ≥ high then "high" else "normal") ≠
          (alistGet? ts.states name).getD "normal"
        then (some (if v ≤ low then "low" else if v ≥ high then "high" else "normal"),
          (⟨ts.thresholds, alistSet ts.states name (if v ≤ low then "low" else if v ≥ high then "high" else "normal")⟩ : ThresholdState))
        else (Option.none, ts)) := by
    unfold checkThreshold
    rw [h]
  rw [e1]
  simp only [claimZone]
  by_cases hc : (if v ≤ low then "low" else if v ≥ high then "high" else "normal") =
      (alistGet? ts.states name).getD "normal"
  · rw [if_neg (not_not_intro hc)]
    refine ⟨?_, hc.symm, rfl⟩
    rw [if_pos hc]
  · rw [if_pos hc]
    refine ⟨?_, ?_, rfl⟩
    · rw [if_neg hc]
    · rw [alistGet_alistSet]
      rfl

/-- Claim C7: should_execute of the rate-limit policy admits exactly
when the count of recorded timestamps in the half-open window
(now - window, now] is strictly below the maximum (given a monotone
clock, every recorded timestamp is at most now); consequently, over
any rolling window of length window_seconds, the times admitted across
a strictly increasing sequence of events number at most the
maximum. -/
theorem c7_rate_limit (m : ℕ) (w : ℚ) :
    (∀ now st, (∀ t ∈ st, t ≤ now) →
      ((rlShould (m : ℚ) w now st).1 = true ↔
        (st.filter (fun t => decide (now - w < t ∧ t ≤ now))).length < m)) ∧
    (∀ times, List.Sorted (· < ·) times → ∀ a : ℚ,
      ((rlRun (m : ℚ) w [] times).filter
        (fun x => decide (a < x ∧ x ≤ a + w))).length ≤ m) := by
  constructor
  · intro now st hst
    unfold rlShould
    simp only [decide_eq_true_eq]
    have heq : st.filter (fun t => decide (now - w < t)) =
        st.filter (fun t => decide (now - w < t ∧ t ≤ now)) := by
      apply List.filter_congr
      intro t ht
      have h2 := hst t ht
      by_cases h1 : now - w < t
      · simp [h1, h2]
      · simp [h1]
    rw [heq]
    exact Nat.cast_lt
  · intro times hsorted a
    rcases rl_window_gen m w times [] hsorted List.nodup_nil
        (by intro u hu; simp at hu) a with h | h
    · simpa using h
    · omega

/-- Witness for the C7 theorem on a concrete state and a concrete
strictly increasing burst. -/
theorem c7_rate_limit_witness :
    ((rlShould ((3 : ℕ) : ℚ) 1 1 [1]).1 = true ↔
      (([1] : List ℚ).filter (fun t => decide ((1 : ℚ) - 1 < t ∧ t ≤ 1))).length < 3) ∧
    ((rlRun ((3 : ℕ) : ℚ) 1 [] [0, 1, 2, 9]).filter
      (fun x => decide ((0 : ℚ) < x ∧ x ≤ 0 + 1))).length ≤ 3 :=
  ⟨(c7_rate_limit 3 1).1 1 [1] (by decide),
    (c7_rate_limit 3 1).2 [0, 1, 2, 9] (by decide) 0⟩

/-- Witness for the C8 theorem: the cpu band 20 to 80 at sample 90. -/
theorem c8_threshold_machine_witness :
    (checkThreshold (setThreshold {} "cpu" 20 80) "cpu" 90).1 =
      (if claimZone 20 80 90 =
          (alistGet? (setThreshold {} "cpu" 20 80).states "cpu").getD "normal"
        then Option.none else some (claimZone 20 80 90)) ∧
    (alistGet? (checkThreshold (setThreshold {} "cpu" 20 80) "cpu" 90).2.states
        "cpu").getD "normal" = claimZone 20 80 90 ∧
    (checkThreshold (setThreshold {} "cpu" 20 80) "cpu" 90).2.thresholds =
      (setThreshold {} "cpu" 20 80).thresholds :=
  c8_threshold_machine (setThreshold {} "cpu" 20 80) "cpu" 20 80 90 rfl

/-- Claim C9: serializing a SignalEvent with to_dict and parsing the
dictionary back with from_dict yields an event that is field-wise
equal to the original (id, source_type, source_name, event_type,
timestamp, data, metadata), for every event whose timestamp is a valid
datetime. -/
theorem c9_roundtrip (e : SignalEventR) (h : e.timestamp.Valid) :
    fromDict? (toDict e) = some e := by
  obtain ⟨eid, sty, sn, et, ts, dat, md⟩ := e
  unfold fromDict? toDict
  simp only [eventTypeOf_value, parseIso_isoCodes ts h,
    Option.bind_eq_bind, Option.some_bind]
  rfl

/-- Witness for the C9 theorem at a concrete event with a nonzero
microsecond field. -/
theorem c9_roundtrip_witness :
    (⟨2025, 3, 14, 15, 9, 26, 535897⟩ : PyDatetime).Valid ∧
    fromDict? (toDict ⟨"id1", "cpu", "mon", .thresholdCrossed,
        ⟨2025, 3, 14, 15, 9, 26, 535897⟩,
        .dict [("cpu_percent", .num 91)], .dict []⟩) =
      some ⟨"id1", "cpu", "mon", .thresholdCrossed,
        ⟨2025, 3, 14, 15, 9, 26, 535897⟩,
        .dict [("cpu_percent", .num 91)], .dict []⟩ :=
  ⟨by decide, c9_roundtrip _ (by decide)⟩

/-- Claim C10: BooleanFilter.evaluate is total.  For a non-unary
operator it returns false whenever the configured comparand is None or
the dot path resolves to None, and it returns false whenever the
operator application raises. -/
theorem c10_boolean_filter_total (fp op : String) (value d : PyVal) :
    (op ∉ unaryOps → value = PyVal.none →
      boolFilterEval (.str fp) (.str op) value d = false) ∧
    (op ∉ unaryOps → getNestedValue d fp = PyVal.none →
      boolFilterEval (.str fp) (.str op) value d = false) ∧
    (∀ f, evalOp? op = some f →
      f (getNestedValue d fp) value = .error () →
      boolFilterEval (.str fp) (.str op) value d = false) := by
  refine ⟨?_, ?_, ?_⟩
  · intro h1 h2
    subst h2
    cases hop : evalOp? op with
    | none => simp [boolFilterEval, boolFilterCore, hop]
    | some f => simp [boolFilterEval, boolFilterCore, hop, h1, pyIsNone]
  · intro h1 h2
    cases hop : evalOp? op with
    | none => simp [boolFilterEval, boolFilterCore, hop]
    | some f =>
      cases hv : pyIsNone value with
      | true => simp [boolFilterEval, boolFilterCore, hop, h1, hv]
      | false => simp [boolFilterEval, boolFilterCore, hop, h1, hv, h2, pyIsNone]
  · intro f hf herr
    by_cases h1 : op ∈ unaryOps
    · simp [boolFilterEval, boolFilterCore, hf, h1, herr]
    · cases hv : pyIsNone value with
      | true => simp [boolFilterEval, boolFilterCore, hf, h1, hv]
      | false =>
        cases hfv : pyIsNone (getNestedValue d fp) with
        | true => simp [boolFilterEval, boolFilterCore, hf, h1, hv, hfv]
        | false => simp [boolFilterEval, boolFilterCore, hf, h1, hv, hfv, herr]

/-- Witness for the C10 theorem: a numeric comparison with a None
comparand evaluates to false. -/
theorem c10_boolean_filter_total_witness :
    boolFilterEval (.str "cpu_percent") (.str ">") PyVal.none (.dict []) = false :=
  (c10_boolean_filter_total "cpu_percent" ">" PyVal.none (.dict [])).1
    (by decide) rfl

end SignalDocks
